import Mathlib

/-!
Verification development for the MetaMCP Facebook package.

The development gives a shallow embedding of the package's three layers:
the zod schema catalog (`toolSchemas.ts`), the `FacebookManager`
request-shaping methods (`manager.ts` and its consolidated variant), and
the tool registry that binds schema validation to manager calls.

Modelling conventions:

* JSON values are the inductive `JsonValue`; raw tool arguments are an
  association list of fields (handlers always receive an object of type
  `Record<string, unknown>` in the source).
* JSON numbers are rationals (`Rat`); the zod `.int()` check is a
  denominator-one test, so non-integral inputs are representable.
* An outbound HTTP call of the external `GraphApiClient` collaborator is
  the record `Request`. A TypeScript `params` object entry holding
  `undefined` is serialized as an absent parameter by the client, so such
  entries are modelled by omitting the key.
* Manager methods are pure request shapers: each returns the list of
  requests it issues (always a singleton here).  Response decoding is the
  external client's concern and is not modelled; the client-side
  post-processing helpers (`filterNegativeComments`,
  `getPostTopCommenters`) are modelled as pure functions of the decoded
  collection they operate on.
* zod collects every issue of a parse; this embedding reports the first
  issue only.  A parse fails here exactly when it fails in zod, which is
  all the claims depend on.
-/

namespace MetaMCP

/-- JSON-like values, modelling the untyped `unknown` arguments a tool
handler receives and the nested bodies the manager sends. -/
inductive JsonValue where
  | str (s : String)
  | num (q : Rat)
  | bool (b : Bool)
  | arr (elems : List JsonValue)
  | obj (fields : List (String × JsonValue))
  | null

/-- Raw arguments of a tool invocation: a JSON object, field by field.
A key that is absent models a TypeScript `undefined` field. -/
abbrev RawArgs := List (String × JsonValue)

/-- First value bound to a key in a JSON object (JS object field access). -/
def lookupField (args : RawArgs) (k : String) : Option JsonValue :=
  (args.find? (fun p => p.1 == k)).map (·.2)

/-- ASCII lower-casing, modelling `String.prototype.toLowerCase` on the
ASCII texts the negative-keyword filter compares. -/
def jsToLower (s : String) : String := ⟨s.data.map Char.toLower⟩

/-- Char-list version of `String.startsWith`. -/
def charsHavePre : List Char → List Char → Bool
  | [], _ => true
  | _ :: _, [] => false
  | a :: as, b :: bs => a == b && charsHavePre as bs

/-- Substring test on char lists: does the haystack contain the needle? -/
def charsHaveSub (needle : List Char) : List Char → Bool
  | [] => needle.isEmpty
  | b :: bs => charsHavePre needle (b :: bs) || charsHaveSub needle bs

/-- Substring containment, modelling `String.prototype.includes`. -/
def strContains (hay needle : String) : Bool :=
  charsHaveSub needle.data hay.data

/-- String prefix test. -/
def strHasPre (s p : String) : Bool := charsHavePre p.data s.data

/-- Modelled approximation of the zod `.url()` runtime check (the zod
library is an external collaborator): the string is an absolute http or
https URL with a nonempty remainder after the scheme.  Every URL the
claims exercise is classified the same way by zod. -/
def isHttpUrl (s : String) : Bool :=
  (strHasPre s "http://" && decide (7 < s.data.length)) ||
    (strHasPre s "https://" && decide (8 < s.data.length))

/-- Uppercase hex digit of a number below 16. -/
def hexUpper (n : Nat) : Char :=
  if n < 10 then Char.ofNat (48 + n) else Char.ofNat (55 + n)

/-- UTF-8 bytes of a character, as numbers. -/
def utf8Bytes (c : Char) : List Nat :=
  let n := c.toNat
  if n < 128 then [n]
  else if n < 2048 then [192 + n / 64, 128 + n % 64]
  else if n < 65536 then [224 + n / 4096, 128 + n / 64 % 64, 128 + n % 64]
  else [240 + n / 262144, 128 + n / 4096 % 64, 128 + n / 64 % 64, 128 + n % 64]

/-- Characters `URLSearchParams` leaves unescaped. -/
def isFormSafeChar (c : Char) : Bool :=
  c.isAlphanum || c == '*' || c == '-' || c == '.' || c == '_'

/-- application/x-www-form-urlencoded encoding of one character. -/
def formEncodeChar (c : Char) : String :=
  if c == ' ' then "+"
  else if isFormSafeChar c then String.singleton c
  else String.join ((utf8Bytes c).map
    (fun b => String.mk ['%', hexUpper (b / 16), hexUpper (b % 16)]))

/-- application/x-www-form-urlencoded encoding of a string. -/
def formEncodeStr (s : String) : String :=
  String.join (s.data.map formEncodeChar)

/-- Flattening of a string-to-string mapping into a URL-encoded form
string, modelling `new URLSearchParams(body).toString()`. -/
def formUrlEncode (kvs : List (String × String)) : String :=
  String.intercalate "&" (kvs.map (fun kv => formEncodeStr kv.1 ++ "=" ++ formEncodeStr kv.2))

/-- HTTP methods the Graph API client accepts. -/
inductive HttpMethod where
  | GET | POST | DELETE | PATCH
deriving DecidableEq, Repr

/-- One encoded sub-operation of a batch call: the object
`batchRequest` maps each supplied operation to before JSON-serializing
the array (manager.ts, `batchRequest`).  `body` is already flattened to a
URL-encoded form string at this point. -/
structure EncodedBatchOp where
  method : HttpMethod
  relative_url : String
  body : Option String
  name : Option String
  omit_response_on_success : Option Bool
deriving DecidableEq, Repr

/-- A query/body parameter value of an outbound request.  `opsJson`
carries the array handed to `JSON.stringify` for the `batch` parameter;
serializing it and parsing the JSON back are the JSON library's inverse
pair, so the embedding keeps the structured array. -/
inductive ParamValue where
  | str (s : String)
  | int (n : Int)
  | bool (b : Bool)
  | opsJson (ops : List EncodedBatchOp)
deriving DecidableEq, Repr

/-- One outbound call of the external `GraphApiClient` collaborator. -/
structure Request where
  method : HttpMethod
  endpoint : String
  params : List (String × ParamValue) := []
  body : Option JsonValue := none

/-- Parameter entry present only when the TypeScript value is defined. -/
def optStrParam (k : String) (v : Option String) : List (String × ParamValue) :=
  match v with
  | some s => [(k, .str s)]
  | none => []

/-- Boolean parameter entry present only when the value is defined. -/
def optBoolParam (k : String) (v : Option Bool) : List (String × ParamValue) :=
  match v with
  | some b => [(k, .bool b)]
  | none => []

/-- Integer parameter entry present only when the value is defined. -/
def optIntParam (k : String) (v : Option Int) : List (String × ParamValue) :=
  match v with
  | some n => [(k, .int n)]
  | none => []

/-- Value of a named parameter of a request, if the request carries it. -/
def Request.param (r : Request) (k : String) : Option ParamValue :=
  (r.params.find? (fun p => p.1 == k)).map (·.2)

/-- A Facebook user as it appears in a comment's `from` field
(`facebookUserSchema` in toolSchemas.ts). -/
structure FacebookUser where
  id : String
  name : Option String := none
deriving DecidableEq, Repr

/-- A Facebook comment (`commentSchema` in toolSchemas.ts).  The source
field `from` is a Lean keyword, so it is called `fromUser` here. -/
structure FacebookComment where
  id : String := ""
  message : Option String := none
  fromUser : Option FacebookUser := none
  created_time : Option String := none
deriving DecidableEq, Repr

/-- A decoded Graph API collection.  The manager guards `data` with
`?? []`, so `data` is modelled as optional. -/
structure GraphApiCollection (α : Type) where
  data : Option (List α) := none
deriving DecidableEq, Repr

/-- A batch sub-operation as accepted by `batchOperationSchema`
(toolSchemas.ts) and consumed by `batchRequest` (manager.ts). -/
structure BatchOperation where
  method : HttpMethod
  relative_url : String
  body : Option (List (String × String)) := none
  name : Option String := none
  omit_response_on_success : Option Bool := none
deriving DecidableEq, Repr

/-- Defined optional fields of a text post, as passed to
`FacebookManager.postToFacebook` (manager.ts:36). -/
structure PostOptions where
  link : Option String := none
  place : Option String := none
  published : Option Bool := none
  scheduled_publish_time : Option Int := none
deriving DecidableEq, Repr

/-- Request shaped by `FacebookManager.postToFacebook`: POST `{page}/feed`
with the message and the defined options spread into the params.  The
message is an `Option` because the consolidated registry passes
`parsed.message!`, whose runtime value may be `undefined`; an undefined
param is absent from the serialized call. -/
def postToFacebookRequest (pageId : String) (message : Option String)
    (options : PostOptions) : Request :=
  { method := .POST
    endpoint := pageId ++ "/feed"
    params := optStrParam "message" message
      ++ optStrParam "link" options.link
      ++ optStrParam "place" options.place
      ++ optBoolParam "published" options.published
      ++ optIntParam "scheduled_publish_time" options.scheduled_publish_time }

/-- Request shaped by `FacebookManager.postImageToFacebook`: POST
`{page}/photos` with `{url, caption}` (manager.ts:199). -/
def postImageRequest (pageId imageUrl caption : String) : Request :=
  { method := .POST
    endpoint := pageId ++ "/photos"
    params := [("url", .str imageUrl), ("caption", .str caption)] }

/-- Request shaped by `FacebookManager.getPagePosts` (manager.ts:60 and
the consolidated variant): GET `{page}/posts` with fields, limit, and the
`after` cursor when supplied. -/
def getPagePostsRequest (pageId : String) (limit : Nat) (after : Option String)
    (fields : String := "id,message,created_time") : Request :=
  { method := .GET
    endpoint := pageId ++ "/posts"
    params := [("fields", .str fields), ("limit", .int (limit : Int))]
      ++ optStrParam "after" after }

/-- Request shaped by `FacebookManager.getPostComments`: GET
`{post_id}/comments`.  In the consolidated variant `summary` is `"true"`
when a total count is requested and `undefined` (absent) otherwise; the
legacy variant never sends it, which coincides with
`includeSummary := false`. -/
def getPostCommentsRequest (postId : String) (limit : Nat) (after : Option String)
    (includeSummary : Bool := false) : Request :=
  { method := .GET
    endpoint := postId ++ "/comments"
    params := [("fields", .str "id,message,from,created_time"), ("limit", .int (limit : Int))]
      ++ optStrParam "after" after
      ++ (if includeSummary then [("summary", ParamValue.str "true")] else []) }

/-- Request shaped by `FacebookManager.replyToComment`: POST
`{comment_id}/comments` with the message. -/
def replyToCommentRequest (commentId message : String) : Request :=
  { method := .POST
    endpoint := commentId ++ "/comments"
    params := [("message", .str message)] }

/-- Request shaped by `deletePost` / `deleteComment`: DELETE `{id}`. -/
def deleteRequest (id : String) : Request :=
  { method := .DELETE, endpoint := id }

/-- The 8 default metrics of the consolidated `getInsights`
(`FacebookManager.DEFAULT_METRICS`), in declared order; the legacy
`getPostInsights` hard-codes the same list. -/
def DEFAULT_METRICS : List String :=
  [ "post_impressions_unique"
  , "post_clicks"
  , "post_reactions_like_total"
  , "post_reactions_love_total"
  , "post_reactions_wow_total"
  , "post_reactions_haha_total"
  , "post_reactions_sorry_total"
  , "post_reactions_anger_total" ]

/-- Requests issued by the consolidated `FacebookManager.getInsights`:
one GET `{post_id}/insights` whose `metric` parameter comma-joins the
requested metrics, defaulting to `DEFAULT_METRICS` when the argument is
absent or empty (`metrics?.length ? metrics : DEFAULT_METRICS`), with
`period=lifetime`. -/
def getInsightsRequests (postId : String) (metrics : Option (List String)) : List Request :=
  let metricsToFetch :=
    match metrics with
    | some ms => if ms.isEmpty then DEFAULT_METRICS else ms
    | none => DEFAULT_METRICS
  [{ method := .GET
     endpoint := postId ++ "/insights"
     params := [("metric", .str (String.intercalate "," metricsToFetch)),
                ("period", .str "lifetime")] }]

/-- Request shaped by the consolidated `getPageInfo`: GET `{page}` with
the requested fields (default `id,name,fan_count`). -/
def getPageInfoRequest (pageId : String)
    (fields : String := "id,name,fan_count") : Request :=
  { method := .GET, endpoint := pageId, params := [("fields", .str fields)] }

/-- Request shaped by `FacebookManager.sendDmToUser`: POST `me/messages`
with a nested `{recipient:{id}, message:{text}, messaging_type}` body. -/
def sendDmRequest (userId message : String) : Request :=
  { method := .POST
    endpoint := "me/messages"
    body := some (.obj
      [ ("recipient", .obj [("id", .str userId)])
      , ("message", .obj [("text", .str message)])
      , ("messaging_type", .str "RESPONSE") ]) }

/-- Request shaped by `FacebookManager.updatePost`: POST `{post_id}` with
the new message. -/
def updatePostRequest (postId newMessage : String) : Request :=
  { method := .POST, endpoint := postId, params := [("message", .str newMessage)] }

/-- Request shaped by `FacebookManager.schedulePost`: POST `{page}/feed`
with `published=false` and the scheduled time. -/
def schedulePostRequest (pageId message : String) (publishTime : Int) : Request :=
  { method := .POST
    endpoint := pageId ++ "/feed"
    params := [("message", .str message), ("published", .bool false),
               ("scheduled_publish_time", .int publishTime)] }

/-- Request shaped by `getPageFanCount`: GET `{page}` with `fan_count`. -/
def fanCountRequest (pageId : String) : Request :=
  { method := .GET, endpoint := pageId, params := [("fields", .str "fan_count")] }

/-- Request shaped by `getPostShareCount`: GET `{post_id}` with `shares`. -/
def shareCountRequest (postId : String) : Request :=
  { method := .GET, endpoint := postId, params := [("fields", .str "shares")] }

/-- Request shaped by `getNumberOfLikes`: GET `{post_id}` with a likes
summary field. -/
def likesCountRequest (postId : String) : Request :=
  { method := .GET, endpoint := postId, params := [("fields", .str "likes.summary(true)")] }

/-- Per-operation encoding step of `FacebookManager.batchRequest`: the
`body` mapping, when present, is flattened to a URL-encoded form string;
the other fields are carried over. -/
def encodeBatchOp (op : BatchOperation) : EncodedBatchOp :=
  { method := op.method
    relative_url := op.relative_url
    body := op.body.map formUrlEncode
    name := op.name
    omit_response_on_success := op.omit_response_on_success }

/-- Requests issued by `FacebookManager.batchRequest` (manager.ts:259):
exactly one POST to the root endpoint whose `batch` parameter is the
JSON-serialized array of encoded sub-operations (in supplied order) and
whose `include_headers` flag is forwarded alongside. -/
def batchRequestRequests (ops : List BatchOperation) (includeHeaders : Bool) : List Request :=
  [{ method := .POST
     endpoint := ""
     params := [("batch", .opsJson (ops.map encodeBatchOp)),
                ("include_headers", .bool includeHeaders)] }]

/-- The fixed negative-sentiment keyword list (manager.ts:10). -/
def NEGATIVE_KEYWORDS : List String :=
  ["bad", "terrible", "awful", "hate", "dislike", "problem", "issue", "scam", "refund", "broken"]

/-- Per-comment test of `filterNegativeComments` (manager.ts:98): the
lower-cased message text must be truthy (present and nonempty) and
contain some keyword of the fixed list; the keyword loop short-circuits
on the first match, which `List.any` also does. -/
def isNegativeComment (comment : FacebookComment) : Bool :=
  match comment.message with
  | none => false
  | some m =>
    let text := jsToLower m
    if text.data.isEmpty then false
    else NEGATIVE_KEYWORDS.any (fun keyword => strContains text keyword)

/-- Client-side filter of `FacebookManager.filterNegativeComments`:
retain, in order, the comments whose message matches a negative
keyword. -/
def filterNegativeComments (comments : GraphApiCollection FacebookComment) :
    List FacebookComment :=
  (comments.data.getD []).filter isNegativeComment

/-- Commenter identifier used by `getPostTopCommenters`
(`comment.from?.id` with falsy identifiers skipped by
`if (!userId) continue`). -/
def authorId (comment : FacebookComment) : Option String :=
  match comment.fromUser with
  | none => none
  | some u => if u.id = "" then none else some u.id

/-- The sequence of identifiable comment authors, in comment order. -/
def commentAuthors (comments : GraphApiCollection FacebookComment) : List String :=
  (comments.data.getD []).filterMap authorId

/-- One step of the tally: a JS `Map.set(k, (get(k) ?? 0) + 1)`.
Updating an existing key keeps its position; a new key is appended. -/
def bumpCount : List (String × Nat) → String → List (String × Nat)
  | [], k => [(k, 1)]
  | (k0, v) :: rest, k =>
    if k0 == k then (k0, v + 1) :: rest else (k0, v) :: bumpCount rest k

/-- The frequency map of `getPostTopCommenters` as an insertion-ordered
association list (JS `Map` iterates in insertion order). -/
def tallyAuthors (authors : List String) : List (String × Nat) :=
  authors.foldl bumpCount []

/-- First value bound to a key in a counter, zero when absent
(JS `counter.get(k) ?? 0`). -/
def lookedUp (acc : List (String × Nat)) (k : String) : Nat :=
  match acc with
  | [] => 0
  | (k0, v) :: rest => if k0 == k then v else lookedUp rest k

/-- One `{user_id, count}` result pair of `getPostTopCommenters`. -/
structure CommenterCount where
  user_id : String
  count : Nat
deriving DecidableEq, Repr

/-- Insertion of an entry into a count-descending list, after every
entry with an equal or larger count. -/
def insertByCountDesc (x : CommenterCount) : List CommenterCount → List CommenterCount
  | [] => [x]
  | y :: ys => if y.count < x.count then x :: y :: ys else y :: insertByCountDesc x ys

/-- Left-to-right insertion pass of the stable sort. -/
def sortCountGo : List CommenterCount → List CommenterCount → List CommenterCount
  | [], acc => acc
  | x :: xs, acc => sortCountGo xs (insertByCountDesc x acc)

/-- Stable sort by count descending, modelling
`.sort((a, b) => b.count - a.count)`; `Array.prototype.sort` is stable,
and a left-to-right insertion after ties realizes the same stable
order. -/
def sortByCountDesc (entries : List CommenterCount) : List CommenterCount :=
  sortCountGo entries []

/-- Client-side computation of `FacebookManager.getPostTopCommenters`
(manager.ts:184) on the decoded comment collection: tally one count per
identifiable author, map the entries to `{user_id, count}` pairs, and
sort by count descending. -/
def getPostTopCommenters (comments : GraphApiCollection FacebookComment) :
    List CommenterCount :=
  sortByCountDesc ((tallyAuthors (commentAuthors comments)).map
    (fun e => { user_id := e.1, count := e.2 }))

/-- One issue of a structured zod validation error: a field path and a
reason. -/
structure ZodIssue where
  path : List String
  message : String
deriving DecidableEq, Repr

/-- A structured validation error, as raised by `schema.parse`. -/
abbrev ValidationError := List ZodIssue

/-- Single-issue error. -/
def issue (path : List String) (msg : String) : ValidationError :=
  [{ path := path, message := msg }]

/-- zod `z.string().min(n)` on a required object field: absent, wrongly
typed, or too-short values are rejected. -/
def parseRequiredString (args : RawArgs) (field : String) (minLen : Nat) :
    Except ValidationError String :=
  match lookupField args field with
  | some (.str s) =>
    if minLen ≤ s.data.length then .ok s
    else .error (issue [field] "String must contain at least 1 character(s)")
  | some _ => .error (issue [field] "Expected string")
  | none => .error (issue [field] "Required")

/-- zod `z.string().optional()`: an absent field parses to `none`. -/
def parseOptionalString (args : RawArgs) (field : String) :
    Except ValidationError (Option String) :=
  match lookupField args field with
  | some (.str s) => .ok (some s)
  | some _ => .error (issue [field] "Expected string")
  | none => .ok none

/-- zod `z.string().min(1).optional()`. -/
def parseOptionalMinString (args : RawArgs) (field : String) :
    Except ValidationError (Option String) :=
  match lookupField args field with
  | some (.str s) =>
    if 1 ≤ s.data.length then .ok (some s)
    else .error (issue [field] "String must contain at least 1 character(s)")
  | some _ => .error (issue [field] "Expected string")
  | none => .ok none

/-- zod `z.string().url()` on a required field. -/
def parseRequiredUrl (args : RawArgs) (field : String) :
    Except ValidationError String :=
  match lookupField args field with
  | some (.str s) =>
    if isHttpUrl s then .ok s else .error (issue [field] "Invalid url")
  | some _ => .error (issue [field] "Expected string")
  | none => .error (issue [field] "Required")

/-- zod `z.string().url().optional()`. -/
def parseOptionalUrl (args : RawArgs) (field : String) :
    Except ValidationError (Option String) :=
  match lookupField args field with
  | some (.str s) =>
    if isHttpUrl s then .ok (some s) else .error (issue [field] "Invalid url")
  | some _ => .error (issue [field] "Expected string")
  | none => .ok none

/-- zod `z.number().int().min(1).max(100).optional().default(25)`, the
pagination limit of the list schemas (toolSchemas.ts:47): an absent
field defaults to 25, a present one must be an integer in `[1, 100]`. -/
def parseLimitField (args : RawArgs) : Except ValidationError Nat :=
  match lookupField args "limit" with
  | some (.num q) =>
    if q.den == 1 && 1 ≤ q.num && q.num ≤ 100 then .ok q.num.toNat
    else .error (issue ["limit"] "Expected integer between 1 and 100")
  | some _ => .error (issue ["limit"] "Expected number")
  | none => .ok 25

/-- zod `z.boolean().optional().default(b)`. -/
def parseBoolDefault (args : RawArgs) (field : String) (dflt : Bool) :
    Except ValidationError Bool :=
  match lookupField args field with
  | some (.bool b) => .ok b
  | some _ => .error (issue [field] "Expected boolean")
  | none => .ok dflt

/-- zod `z.boolean().optional()`. -/
def parseOptionalBool (args : RawArgs) (field : String) :
    Except ValidationError (Option Bool) :=
  match lookupField args field with
  | some (.bool b) => .ok (some b)
  | some _ => .error (issue [field] "Expected boolean")
  | none => .ok none

/-- zod `z.number().int().optional()`. -/
def parseOptionalInt (args : RawArgs) (field : String) :
    Except ValidationError (Option Int) :=
  match lookupField args field with
  | some (.num q) =>
    if q.den == 1 then .ok (some q.num)
    else .error (issue [field] "Expected integer")
  | some _ => .error (issue [field] "Expected number")
  | none => .ok none

/-- zod `z.number().int().positive()` on a required field. -/
def parsePositiveInt (args : RawArgs) (field : String) :
    Except ValidationError Int :=
  match lookupField args field with
  | some (.num q) =>
    if q.den == 1 && 0 < q.num then .ok q.num
    else .error (issue [field] "Expected positive integer")
  | some _ => .error (issue [field] "Expected number")
  | none => .error (issue [field] "Required")

/-- zod `z.string().optional().default("")` (the image caption). -/
def parseStringDefaultEmpty (args : RawArgs) (field : String) :
    Except ValidationError String :=
  match lookupField args field with
  | some (.str s) => .ok s
  | some _ => .error (issue [field] "Expected string")
  | none => .ok ""

/-- zod `z.enum(["GET","POST","DELETE","PATCH"])` on a JSON value. -/
def parseHttpMethodV (field : String) : JsonValue → Except ValidationError HttpMethod
  | .str "GET" => .ok .GET
  | .str "POST" => .ok .POST
  | .str "DELETE" => .ok .DELETE
  | .str "PATCH" => .ok .PATCH
  | .str _ => .error (issue [field] "Invalid enum value")
  | _ => .error (issue [field] "Expected string")

/-- zod `z.record(z.string(), z.string())` over the fields of an
object: every value must be a string. -/
def parseStringPairs (field : String) :
    List (String × JsonValue) → Except ValidationError (List (String × String))
  | [] => .ok []
  | (k, .str s) :: rest => (parseStringPairs field rest).map (fun tl => (k, s) :: tl)
  | (_, _) :: _ => .error (issue [field] "Expected string record")

/-- `batchOperationSchema` (toolSchemas.ts:25) on one array element. -/
def parseBatchOp (v : JsonValue) : Except ValidationError BatchOperation :=
  match v with
  | .obj kvs => do
    let method ←
      match lookupField kvs "method" with
      | some mv => parseHttpMethodV "method" mv
      | none => .error (issue ["method"] "Required")
    let relUrl ← parseRequiredString kvs "relative_url" 1
    let body ←
      match lookupField kvs "body" with
      | some (.obj pairs) => (parseStringPairs "body" pairs).map some
      | some _ => Except.error (issue ["body"] "Expected object")
      | none => .ok none
    let name ← parseOptionalString kvs "name"
    let omitFlag ← parseOptionalBool kvs "omit_response_on_success"
    .ok { method := method, relative_url := relUrl, body := body,
          name := name, omit_response_on_success := omitFlag }
  | _ => .error (issue [] "Expected object")

/-- Element-wise parse of the operations array. -/
def parseBatchOps : List JsonValue → Except ValidationError (List BatchOperation)
  | [] => .ok []
  | v :: rest => do
    let op ← parseBatchOp v
    let ops ← parseBatchOps rest
    .ok (op :: ops)

/-- `facebookUserSchema` (toolSchemas.ts:9). -/
def parseFacebookUser (v : JsonValue) : Except ValidationError FacebookUser :=
  match v with
  | .obj kvs => do
    let id ← parseRequiredString kvs "id" 1
    let name ← parseOptionalString kvs "name"
    .ok { id := id, name := name }
  | _ => .error (issue [] "Expected object")

/-- `commentSchema` (toolSchemas.ts:14). -/
def parseComment (v : JsonValue) : Except ValidationError FacebookComment :=
  match v with
  | .obj kvs => do
    let id ← parseRequiredString kvs "id" 1
    let message ← parseOptionalString kvs "message"
    let fromUser ←
      match lookupField kvs "from" with
      | some fv => (parseFacebookUser fv).map some
      | none => .ok none
    let created ← parseOptionalString kvs "created_time"
    .ok { id := id, message := message, fromUser := fromUser, created_time := created }
  | _ => .error (issue [] "Expected object")

/-- Element-wise parse of a comment array. -/
def parseComments : List JsonValue → Except ValidationError (List FacebookComment)
  | [] => .ok []
  | v :: rest => do
    let c ← parseComment v
    let cs ← parseComments rest
    .ok (c :: cs)

/-- `commentsSchema` (toolSchemas.ts:21): `{data: comment[] default []}`. -/
def parseCommentCollection (v : JsonValue) :
    Except ValidationError (GraphApiCollection FacebookComment) :=
  match v with
  | .obj kvs =>
    match lookupField kvs "data" with
    | some (.arr elems) => (parseComments elems).map (fun cs => { data := some cs })
    | some _ => .error (issue ["data"] "Expected array")
    | none => .ok { data := some [] }
  | _ => .error (issue [] "Expected object")

/-- Parsed `fb_post_to_facebook` arguments (toolSchemas.ts:34). -/
structure FbPostToFacebookArgs where
  message : String
  link : Option String
  place : Option String
  published : Bool
  scheduled_publish_time : Option Int
deriving DecidableEq, Repr

/-- `toolSchemas.fb_post_to_facebook`. -/
def parse_fb_post_to_facebook (args : RawArgs) :
    Except ValidationError FbPostToFacebookArgs := do
  let message ← parseRequiredString args "message" 1
  let link ← parseOptionalUrl args "link"
  let place ← parseOptionalString args "place"
  let published ← parseBoolDefault args "published" true
  let sched ← parseOptionalInt args "scheduled_publish_time"
  .ok { message := message, link := link, place := place,
        published := published, scheduled_publish_time := sched }

/-- Parsed `fb_reply_to_comment` arguments (toolSchemas.ts:41). -/
structure FbReplyToCommentArgs where
  post_id : String
  comment_id : String
  message : String
deriving DecidableEq, Repr

/-- `toolSchemas.fb_reply_to_comment`. -/
def parse_fb_reply_to_comment (args : RawArgs) :
    Except ValidationError FbReplyToCommentArgs := do
  let postId ← parseRequiredString args "post_id" 1
  let commentId ← parseRequiredString args "comment_id" 1
  let message ← parseRequiredString args "message" 1
  .ok { post_id := postId, comment_id := commentId, message := message }

/-- Parsed `fb_get_page_posts` arguments (toolSchemas.ts:46). -/
structure FbGetPagePostsArgs where
  limit : Nat
  after : Option String
deriving DecidableEq, Repr

/-- `toolSchemas.fb_get_page_posts`. -/
def parse_fb_get_page_posts (args : RawArgs) :
    Except ValidationError FbGetPagePostsArgs := do
  let limit ← parseLimitField args
  let after ← parseOptionalString args "after"
  .ok { limit := limit, after := after }

/-- Parsed `fb_get_post_comments` arguments (toolSchemas.ts:50). -/
structure FbGetPostCommentsArgs where
  post_id : String
  limit : Nat
  after : Option String
deriving DecidableEq, Repr

/-- `toolSchemas.fb_get_post_comments`. -/
def parse_fb_get_post_comments (args : RawArgs) :
    Except ValidationError FbGetPostCommentsArgs := do
  let postId ← parseRequiredString args "post_id" 1
  let limit ← parseLimitField args
  let after ← parseOptionalString args "after"
  .ok { post_id := postId, limit := limit, after := after }

/-- Schemas that consist of a single required `post_id`
(`fb_delete_post`, the insight and count tools, `fb_get_post_top_commenters`). -/
def parsePostIdArgs (args : RawArgs) : Except ValidationError String :=
  parseRequiredString args "post_id" 1

/-- Schemas that consist of a single required `comment_id`. -/
def parseCommentIdArgs (args : RawArgs) : Except ValidationError String :=
  parseRequiredString args "comment_id" 1

/-- `toolSchemas.fb_delete_comment_from_post` (post_id and comment_id). -/
def parse_fb_delete_comment_from_post (args : RawArgs) :
    Except ValidationError (String × String) := do
  let postId ← parseRequiredString args "post_id" 1
  let commentId ← parseRequiredString args "comment_id" 1
  .ok (postId, commentId)

/-- `toolSchemas.fb_filter_negative_comments` (toolSchemas.ts:65). -/
def parse_fb_filter_negative_comments (args : RawArgs) :
    Except ValidationError (GraphApiCollection FacebookComment) :=
  match lookupField args "comments" with
  | some v => parseCommentCollection v
  | none => .error (issue ["comments"] "Required")

/-- Parsed `fb_post_image_to_facebook` arguments (toolSchemas.ts:104). -/
structure FbPostImageArgs where
  image_url : String
  caption : String
deriving DecidableEq, Repr

/-- `toolSchemas.fb_post_image_to_facebook`. -/
def parse_fb_post_image_to_facebook (args : RawArgs) :
    Except ValidationError FbPostImageArgs := do
  let imageUrl ← parseRequiredUrl args "image_url"
  let caption ← parseStringDefaultEmpty args "caption"
  .ok { image_url := imageUrl, caption := caption }

/-- Parsed `fb_send_dm_to_user` arguments (toolSchemas.ts:108). -/
structure FbSendDmArgs where
  user_id : String
  message : String
deriving DecidableEq, Repr

/-- `toolSchemas.fb_send_dm_to_user`. -/
def parse_fb_send_dm_to_user (args : RawArgs) :
    Except ValidationError FbSendDmArgs := do
  let userId ← parseRequiredString args "user_id" 1
  let message ← parseRequiredString args "message" 1
  .ok { user_id := userId, message := message }

/-- Parsed `fb_update_post` arguments (toolSchemas.ts:112). -/
structure FbUpdatePostArgs where
  post_id : String
  new_message : String
deriving DecidableEq, Repr

/-- `toolSchemas.fb_update_post`. -/
def parse_fb_update_post (args : RawArgs) :
    Except ValidationError FbUpdatePostArgs := do
  let postId ← parseRequiredString args "post_id" 1
  let newMessage ← parseRequiredString args "new_message" 1
  .ok { post_id := postId, new_message := newMessage }

/-- Parsed `fb_schedule_post` arguments (toolSchemas.ts:116). -/
structure FbSchedulePostArgs where
  message : String
  publish_time : Int
deriving DecidableEq, Repr

/-- `toolSchemas.fb_schedule_post`. -/
def parse_fb_schedule_post (args : RawArgs) :
    Except ValidationError FbSchedulePostArgs := do
  let message ← parseRequiredString args "message" 1
  let publishTime ← parsePositiveInt args "publish_time"
  .ok { message := message, publish_time := publishTime }

/-- `toolSchemas.fb_get_page_fan_count`, the empty object schema
`z.object({})`: a zod object strips unknown keys, so every argument
object validates. -/
def parse_fb_get_page_fan_count (_args : RawArgs) : Except ValidationError Unit :=
  .ok ()

/-- Parsed `fb_batch_request` arguments (toolSchemas.ts:124). -/
structure FbBatchRequestArgs where
  operations : List BatchOperation
  include_headers : Bool
deriving DecidableEq, Repr

/-- The `operations` field of `fb_batch_request`:
`z.array(batchOperationSchema).min(1)` - the source declares a lower
bound of one operation and no upper bound. -/
def parseOperationsField (args : RawArgs) :
    Except ValidationError (List BatchOperation) :=
  match lookupField args "operations" with
  | some (.arr elems) =>
    if elems.length < 1 then
      Except.error (issue ["operations"] "Array must contain at least 1 element(s)")
    else parseBatchOps elems
  | some _ => Except.error (issue ["operations"] "Expected array")
  | none => Except.error (issue ["operations"] "Required")

/-- `toolSchemas.fb_batch_request` (toolSchemas.ts:124): the bounded-below
operations array plus `include_headers` defaulting to false. -/
def parse_fb_batch_request (args : RawArgs) :
    Except ValidationError FbBatchRequestArgs := do
  let ops ← parseOperationsField args
  let includeHeaders ← parseBoolDefault args "include_headers" false
  .ok { operations := ops, include_headers := includeHeaders }

/-- The closed enumeration of tool names of the legacy 27-tool registry
(`ToolName = keyof typeof toolSchemas`, toolSchemas.ts:160).  The
constructor for the sorry-reaction tool drops a vowel because its source
spelling contains a Lean keyword; `ToolName.str` carries the exact
source name. -/
inductive ToolName where
  | fb_post_to_facebook
  | fb_reply_to_comment
  | fb_get_page_posts
  | fb_get_post_comments
  | fb_delete_post
  | fb_delete_comment
  | fb_delete_comment_from_post
  | fb_filter_negative_comments
  | fb_get_number_of_comments
  | fb_get_number_of_likes
  | fb_get_post_insights
  | fb_get_post_impressions_unique
  | fb_get_post_clicks
  | fb_get_post_reactions_like_total
  | fb_get_post_reactions_love_total
  | fb_get_post_reactions_wow_total
  | fb_get_post_reactions_haha_total
  | fb_get_post_reactions_srry_total
  | fb_get_post_reactions_anger_total
  | fb_get_post_top_commenters
  | fb_post_image_to_facebook
  | fb_send_dm_to_user
  | fb_update_post
  | fb_schedule_post
  | fb_get_page_fan_count
  | fb_get_post_share_count
  | fb_batch_request
deriving DecidableEq, Repr

/-- Source spelling of each tool name. -/
def ToolName.str : ToolName → String
  | .fb_post_to_facebook => "fb_post_to_facebook"
  | .fb_reply_to_comment => "fb_reply_to_comment"
  | .fb_get_page_posts => "fb_get_page_posts"
  | .fb_get_post_comments => "fb_get_post_comments"
  | .fb_delete_post => "fb_delete_post"
  | .fb_delete_comment => "fb_delete_comment"
  | .fb_delete_comment_from_post => "fb_delete_comment_from_post"
  | .fb_filter_negative_comments => "fb_filter_negative_comments"
  | .fb_get_number_of_comments => "fb_get_number_of_comments"
  | .fb_get_number_of_likes => "fb_get_number_of_likes"
  | .fb_get_post_insights => "fb_get_post_insights"
  | .fb_get_post_impressions_unique => "fb_get_post_impressions_unique"
  | .fb_get_post_clicks => "fb_get_post_clicks"
  | .fb_get_post_reactions_like_total => "fb_get_post_reactions_like_total"
  | .fb_get_post_reactions_love_total => "fb_get_post_reactions_love_total"
  | .fb_get_post_reactions_wow_total => "fb_get_post_reactions_wow_total"
  | .fb_get_post_reactions_haha_total => "fb_get_post_reactions_haha_total"
  | .fb_get_post_reactions_srry_total => "fb_get_post_reactions_sorry_total"
  | .fb_get_post_reactions_anger_total => "fb_get_post_reactions_anger_total"
  | .fb_get_post_top_commenters => "fb_get_post_top_commenters"
  | .fb_post_image_to_facebook => "fb_post_image_to_facebook"
  | .fb_send_dm_to_user => "fb_send_dm_to_user"
  | .fb_update_post => "fb_update_post"
  | .fb_schedule_post => "fb_schedule_post"
  | .fb_get_page_fan_count => "fb_get_page_fan_count"
  | .fb_get_post_share_count => "fb_get_post_share_count"
  | .fb_batch_request => "fb_batch_request"

/-- Keys of the `toolSchemas` object literal, in declared order
(toolSchemas.ts:33): `Object.keys(toolSchemas)`, from which the registry
derives its definition list. -/
def toolSchemaNames : List String :=
  [ "fb_post_to_facebook", "fb_reply_to_comment", "fb_get_page_posts"
  , "fb_get_post_comments", "fb_delete_post", "fb_delete_comment"
  , "fb_delete_comment_from_post", "fb_filter_negative_comments"
  , "fb_get_number_of_comments", "fb_get_number_of_likes"
  , "fb_get_post_insights", "fb_get_post_impressions_unique"
  , "fb_get_post_clicks", "fb_get_post_reactions_like_total"
  , "fb_get_post_reactions_love_total", "fb_get_post_reactions_wow_total"
  , "fb_get_post_reactions_haha_total", "fb_get_post_reactions_sorry_total"
  , "fb_get_post_reactions_anger_total", "fb_get_post_top_commenters"
  , "fb_post_image_to_facebook", "fb_send_dm_to_user", "fb_update_post"
  , "fb_schedule_post", "fb_get_page_fan_count", "fb_get_post_share_count"
  , "fb_batch_request" ]

/-- Names of the definition list produced by `createToolRegistry`: the
registry maps over `Object.keys(toolSchemas)` to build one definition
per schema key, in key order. -/
def registryDefinitionNames : List String := toolSchemaNames

/-- Keys of the `handlers` record literal of `createToolRegistry`, in
the order the source declares them. -/
def registryHandlerNames : List String :=
  [ "fb_post_to_facebook", "fb_reply_to_comment", "fb_get_page_posts"
  , "fb_get_post_comments", "fb_delete_post", "fb_delete_comment"
  , "fb_delete_comment_from_post", "fb_filter_negative_comments"
  , "fb_get_number_of_comments", "fb_get_number_of_likes"
  , "fb_get_post_insights", "fb_get_post_impressions_unique"
  , "fb_get_post_clicks", "fb_get_post_reactions_like_total"
  , "fb_get_post_reactions_love_total", "fb_get_post_reactions_wow_total"
  , "fb_get_post_reactions_haha_total", "fb_get_post_reactions_sorry_total"
  , "fb_get_post_reactions_anger_total", "fb_get_post_top_commenters"
  , "fb_post_image_to_facebook", "fb_send_dm_to_user", "fb_update_post"
  , "fb_schedule_post", "fb_get_page_fan_count", "fb_get_post_share_count"
  , "fb_batch_request" ]

/-- Error component of a parse outcome. -/
def errOf {α : Type} : Except ValidationError α → Option ValidationError
  | .error e => some e
  | .ok _ => none

/-- Validation outcome of running a tool's schema on raw arguments:
`some e` when `schema.parse` raises the structured error `e`. -/
def toolSchemaError (t : ToolName) (args : RawArgs) : Option ValidationError :=
  match t with
  | .fb_post_to_facebook => errOf (parse_fb_post_to_facebook args)
  | .fb_reply_to_comment => errOf (parse_fb_reply_to_comment args)
  | .fb_get_page_posts => errOf (parse_fb_get_page_posts args)
  | .fb_get_post_comments => errOf (parse_fb_get_post_comments args)
  | .fb_delete_post => errOf (parsePostIdArgs args)
  | .fb_delete_comment => errOf (parseCommentIdArgs args)
  | .fb_delete_comment_from_post => errOf (parse_fb_delete_comment_from_post args)
  | .fb_filter_negative_comments => errOf (parse_fb_filter_negative_comments args)
  | .fb_get_number_of_comments => errOf (parsePostIdArgs args)
  | .fb_get_number_of_likes => errOf (parsePostIdArgs args)
  | .fb_get_post_insights => errOf (parsePostIdArgs args)
  | .fb_get_post_impressions_unique => errOf (parsePostIdArgs args)
  | .fb_get_post_clicks => errOf (parsePostIdArgs args)
  | .fb_get_post_reactions_like_total => errOf (parsePostIdArgs args)
  | .fb_get_post_reactions_love_total => errOf (parsePostIdArgs args)
  | .fb_get_post_reactions_wow_total => errOf (parsePostIdArgs args)
  | .fb_get_post_reactions_haha_total => errOf (parsePostIdArgs args)
  | .fb_get_post_reactions_srry_total => errOf (parsePostIdArgs args)
  | .fb_get_post_reactions_anger_total => errOf (parsePostIdArgs args)
  | .fb_get_post_top_commenters => errOf (parsePostIdArgs args)
  | .fb_post_image_to_facebook => errOf (parse_fb_post_image_to_facebook args)
  | .fb_send_dm_to_user => errOf (parse_fb_send_dm_to_user args)
  | .fb_update_post => errOf (parse_fb_update_post args)
  | .fb_schedule_post => errOf (parse_fb_schedule_post args)
  | .fb_get_page_fan_count => errOf (parse_fb_get_page_fan_count args)
  | .fb_get_post_share_count => errOf (parsePostIdArgs args)
  | .fb_batch_request => errOf (parse_fb_batch_request args)

/-- Dispatch of the legacy `createToolRegistry` handlers: each handler
validates the raw arguments against its schema (`castArgs` /
`schema.parse`, which throws the structured error) and only then shapes
the corresponding manager requests.  The result is the validation error
or the list of requests the manager issues through the client. -/
def handleTool (pageId : String) (t : ToolName) (args : RawArgs) :
    Except ValidationError (List Request) :=
  match t with
  | .fb_post_to_facebook =>
    (parse_fb_post_to_facebook args).map
      (fun p => [postToFacebookRequest pageId (some p.message) {}])
  | .fb_reply_to_comment =>
    (parse_fb_reply_to_comment args).map
      (fun p => [replyToCommentRequest p.comment_id p.message])
  | .fb_get_page_posts =>
    (parse_fb_get_page_posts args).map
      (fun p => [getPagePostsRequest pageId p.limit p.after])
  | .fb_get_post_comments =>
    (parse_fb_get_post_comments args).map
      (fun p => [getPostCommentsRequest p.post_id p.limit p.after])
  | .fb_delete_post =>
    (parsePostIdArgs args).map (fun postId => [deleteRequest postId])
  | .fb_delete_comment =>
    (parseCommentIdArgs args).map (fun commentId => [deleteRequest commentId])
  | .fb_delete_comment_from_post =>
    (parse_fb_delete_comment_from_post args).map (fun p => [deleteRequest p.2])
  | .fb_filter_negative_comments =>
    (parse_fb_filter_negative_comments args).map (fun _ => [])
  | .fb_get_number_of_comments =>
    (parsePostIdArgs args).map (fun postId => [getPostCommentsRequest postId 25 none])
  | .fb_get_number_of_likes =>
    (parsePostIdArgs args).map (fun postId => [likesCountRequest postId])
  | .fb_get_post_insights =>
    (parsePostIdArgs args).map (fun postId => getInsightsRequests postId (some DEFAULT_METRICS))
  | .fb_get_post_impressions_unique =>
    (parsePostIdArgs args).map
      (fun postId => getInsightsRequests postId (some ["post_impressions_unique"]))
  | .fb_get_post_clicks =>
    (parsePostIdArgs args).map
      (fun postId => getInsightsRequests postId (some ["post_clicks"]))
  | .fb_get_post_reactions_like_total =>
    (parsePostIdArgs args).map
      (fun postId => getInsightsRequests postId (some ["post_reactions_like_total"]))
  | .fb_get_post_reactions_love_total =>
    (parsePostIdArgs args).map
      (fun postId => getInsightsRequests postId (some ["post_reactions_love_total"]))
  | .fb_get_post_reactions_wow_total =>
    (parsePostIdArgs args).map
      (fun postId => getInsightsRequests postId (some ["post_reactions_wow_total"]))
  | .fb_get_post_reactions_haha_total =>
    (parsePostIdArgs args).map
      (fun postId => getInsightsRequests postId (some ["post_reactions_haha_total"]))
  | .fb_get_post_reactions_srry_total =>
    (parsePostIdArgs args).map
      (fun postId => getInsightsRequests postId (some ["post_reactions_sorry_total"]))
  | .fb_get_post_reactions_anger_total =>
    (parsePostIdArgs args).map
      (fun postId => getInsightsRequests postId (some ["post_reactions_anger_total"]))
  | .fb_get_post_top_commenters =>
    (parsePostIdArgs args).map (fun postId => [getPostCommentsRequest postId 25 none])
  | .fb_post_image_to_facebook =>
    (parse_fb_post_image_to_facebook args).map
      (fun p => [postImageRequest pageId p.image_url p.caption])
  | .fb_send_dm_to_user =>
    (parse_fb_send_dm_to_user args).map (fun p => [sendDmRequest p.user_id p.message])
  | .fb_update_post =>
    (parse_fb_update_post args).map (fun p => [updatePostRequest p.post_id p.new_message])
  | .fb_schedule_post =>
    (parse_fb_schedule_post args).map
      (fun p => [schedulePostRequest pageId p.message p.publish_time])
  | .fb_get_page_fan_count =>
    (parse_fb_get_page_fan_count args).map (fun _ => [fanCountRequest pageId])
  | .fb_get_post_share_count =>
    (parsePostIdArgs args).map (fun postId => [shareCountRequest postId])
  | .fb_batch_request =>
    (parse_fb_batch_request args).map
      (fun p => batchRequestRequests p.operations p.include_headers)

/-- Client requests actually performed by a handler outcome: a thrown
validation error unwinds before any request is issued. -/
def requestsIssued : Except ValidationError (List Request) → List Request
  | .error _ => []
  | .ok rs => rs

/-- Parsed arguments of the consolidated `fb_create_post` tool. -/
structure CreatePostArgs where
  message : Option String
  link : Option String
  place : Option String
  published : Bool
  scheduled_publish_time : Option Int
  image_url : Option String
deriving DecidableEq, Repr

/-- Modelled from the spec: the consolidated `fb_create_post` zod schema
is not among the provided source files (only its handler in
toolRegistry.ts and the schema test script that exercises it are).  Per
the spec, `message` and `image_url` are optional, `link` must be a URL,
`place` is a free string, `published` defaults to true,
`scheduled_publish_time` is an integer timestamp, and a cross-field
refinement fails validation unless at least one of `message` or
`image_url` is present, regardless of the other optional fields. -/
def parse_fb_create_post (args : RawArgs) :
    Except ValidationError CreatePostArgs := do
  let message ← parseOptionalMinString args "message"
  let link ← parseOptionalUrl args "link"
  let place ← parseOptionalString args "place"
  let published ← parseBoolDefault args "published" true
  let sched ← parseOptionalInt args "scheduled_publish_time"
  let imageUrl ← parseOptionalUrl args "image_url"
  if message.isNone && imageUrl.isNone then
    .error (issue [] "Either message or image_url must be provided")
  else
    .ok { message := message, link := link, place := place,
          published := published, scheduled_publish_time := sched,
          image_url := imageUrl }

/-- Consolidated `fb_create_post` handler (toolRegistry.ts:26): validate,
then dispatch on `if (parsed.image_url)` - a JS truthiness test, false
for an absent or empty string - to the photo-post path with
`parsed.message ?? ""` as caption, or to the text/link/schedule path
with the remaining parsed fields. -/
def fb_create_post_handler (pageId : String) (args : RawArgs) :
    Except ValidationError (List Request) :=
  match parse_fb_create_post args with
  | .error e => .error e
  | .ok parsed =>
    match parsed.image_url with
    | some u =>
      if u.data.isEmpty then
        .ok [postToFacebookRequest pageId parsed.message
              { link := parsed.link, place := parsed.place,
                published := some parsed.published,
                scheduled_publish_time := parsed.scheduled_publish_time }]
      else
        .ok [postImageRequest pageId u (parsed.message.getD "")]
    | none =>
      .ok [postToFacebookRequest pageId parsed.message
            { link := parsed.link, place := parsed.place,
              published := some parsed.published,
              scheduled_publish_time := parsed.scheduled_publish_time }]

namespace Consolidated

/-- The closed enumeration of tool names of the consolidated 11-tool
registry (`createToolRegistry` in toolRegistry.ts, whose doc comment and
handler record list these names in this order). -/
inductive ToolName where
  | fb_create_post
  | fb_update_post
  | fb_delete_post
  | fb_get_posts
  | fb_get_comments
  | fb_reply_comment
  | fb_delete_comment
  | fb_get_insights
  | fb_get_page_info
  | fb_send_message
  | fb_batch
deriving DecidableEq, Repr

/-- Source spelling of each consolidated tool name. -/
def ToolName.str : ToolName → String
  | .fb_create_post => "fb_create_post"
  | .fb_update_post => "fb_update_post"
  | .fb_delete_post => "fb_delete_post"
  | .fb_get_posts => "fb_get_posts"
  | .fb_get_comments => "fb_get_comments"
  | .fb_reply_comment => "fb_reply_comment"
  | .fb_delete_comment => "fb_delete_comment"
  | .fb_get_insights => "fb_get_insights"
  | .fb_get_page_info => "fb_get_page_info"
  | .fb_send_message => "fb_send_message"
  | .fb_batch => "fb_batch"

/-- Parsed consolidated `fb_update_post` arguments. -/
structure UpdatePostArgs where
  post_id : String
  message : String
deriving DecidableEq, Repr

/-- Modelled from the spec: the consolidated `fb_update_post` zod schema
is not among the provided source files (only its handler at
toolRegistry.ts:44 is).  Per the spec's update-post operation, the post
id and the new message text are required strings. -/
def parse_fb_update_post (args : RawArgs) :
    Except ValidationError UpdatePostArgs := do
  let postId ← parseRequiredString args "post_id" 1
  let message ← parseRequiredString args "message" 1
  .ok { post_id := postId, message := message }

/-- Parsed consolidated `fb_get_posts` arguments. -/
structure GetPostsArgs where
  limit : Nat
  after : Option String
  fields : Option String
deriving DecidableEq, Repr

/-- Modelled from the spec: the consolidated `fb_get_posts` zod schema
is not among the provided source files (only its handler at
toolRegistry.ts:56 is).  Per the spec, the pagination limit is an
integer in `[1, 100]` defaulting to 25, the `after` cursor is an
optional string, and the projected fields are an optional string (the
manager defaults them to `id,message,created_time`). -/
def parse_fb_get_posts (args : RawArgs) :
    Except ValidationError GetPostsArgs := do
  let limit ← parseLimitField args
  let after ← parseOptionalString args "after"
  let fields ← parseOptionalString args "fields"
  .ok { limit := limit, after := after, fields := fields }

/-- Parsed consolidated `fb_get_comments` arguments. -/
structure GetCommentsArgs where
  post_id : String
  limit : Nat
  after : Option String
  include_summary : Option Bool
deriving DecidableEq, Repr

/-- Modelled from the spec: the consolidated `fb_get_comments` zod
schema is not among the provided source files (only its handler at
toolRegistry.ts:62 is).  Per the spec, the post id is required, the
pagination fields are as for post listing, and an optional boolean
requests the summary total count (the manager defaults it to false). -/
def parse_fb_get_comments (args : RawArgs) :
    Except ValidationError GetCommentsArgs := do
  let postId ← parseRequiredString args "post_id" 1
  let limit ← parseLimitField args
  let after ← parseOptionalString args "after"
  let includeSummary ← parseOptionalBool args "include_summary"
  .ok { post_id := postId, limit := limit, after := after,
        include_summary := includeSummary }

/-- Parsed consolidated `fb_reply_comment` arguments. -/
structure ReplyCommentArgs where
  comment_id : String
  message : String
deriving DecidableEq, Repr

/-- Modelled from the spec: the consolidated `fb_reply_comment` zod
schema is not among the provided source files (only its handler at
toolRegistry.ts:68 is).  Per the spec's reply operation, the comment id
and the message are required strings. -/
def parse_fb_reply_comment (args : RawArgs) :
    Except ValidationError ReplyCommentArgs := do
  let commentId ← parseRequiredString args "comment_id" 1
  let message ← parseRequiredString args "message" 1
  .ok { comment_id := commentId, message := message }

/-- Parsed consolidated `fb_get_insights` arguments. -/
structure GetInsightsArgs where
  post_id : String
  metrics : Option (List String)
deriving DecidableEq, Repr

/-- Enumerated metric-name check: per the spec, named insight metrics
must reject any value outside the closed set of valid metric names. -/
def parseMetricName (v : JsonValue) : Except ValidationError String :=
  match v with
  | .str s =>
    if s ∈ DEFAULT_METRICS then .ok s
    else .error (issue ["metrics"] "Invalid enum value")
  | _ => .error (issue ["metrics"] "Expected string")

/-- Element-wise parse of a metric-name array. -/
def parseMetricsList : List JsonValue → Except ValidationError (List String)
  | [] => .ok []
  | v :: rest => do
    let m ← parseMetricName v
    let ms ← parseMetricsList rest
    .ok (m :: ms)

/-- Modelled from the spec: the consolidated `fb_get_insights` zod
schema is not among the provided source files (only its handler at
toolRegistry.ts:80 and the schema test that prints it are).  Per the
spec, the post id is required and the metric list is optional, each
entry drawn from the closed set of valid metric names. -/
def parse_fb_get_insights (args : RawArgs) :
    Except ValidationError GetInsightsArgs := do
  let postId ← parseRequiredString args "post_id" 1
  let metrics ←
    match lookupField args "metrics" with
    | some (.arr elems) => (parseMetricsList elems).map some
    | some _ => Except.error (issue ["metrics"] "Expected array")
    | none => Except.ok none
  .ok { post_id := postId, metrics := metrics }

/-- Modelled from the spec: the consolidated `fb_get_page_info` zod
schema is not among the provided source files (only its handler at
toolRegistry.ts:86 is).  Per the spec's page-info operation, the
requested fields are an optional string (the manager defaults them to
`id,name,fan_count`). -/
def parse_fb_get_page_info (args : RawArgs) :
    Except ValidationError (Option String) :=
  parseOptionalString args "fields"

/-- Modelled from the spec: the consolidated `fb_send_message` zod
schema is not among the provided source files (only its handler at
toolRegistry.ts:92 is).  Per the spec's send-message operation it has
the same shape as the in-src legacy `fb_send_dm_to_user` schema: a
required user id and a required message. -/
def parse_fb_send_message (args : RawArgs) :
    Except ValidationError FbSendDmArgs :=
  parse_fb_send_dm_to_user args

/-- Modelled from the spec: the consolidated `fb_batch` zod schema is
not among the provided source files (only its handler at
toolRegistry.ts:98 is).  Per the spec's batch operation it has the same
shape as the in-src legacy `fb_batch_request` schema: a bounded-below
array of batch operations plus an `include_headers` flag defaulting to
false. -/
def parse_fb_batch (args : RawArgs) :
    Except ValidationError FbBatchRequestArgs :=
  parse_fb_batch_request args

/-- Dispatch of the consolidated `createToolRegistry` handlers
(toolRegistry.ts:24-102): each handler validates the raw arguments with
`parseToolArgs` (which throws the schema's structured error) and only
then invokes one manager method.  The result is the validation error or
the list of requests the manager issues. -/
def handleTool (pageId : String) (t : ToolName) (args : RawArgs) :
    Except ValidationError (List Request) :=
  match t with
  | .fb_create_post => fb_create_post_handler pageId args
  | .fb_update_post =>
    (parse_fb_update_post args).map
      (fun p => [updatePostRequest p.post_id p.message])
  | .fb_delete_post =>
    (parsePostIdArgs args).map (fun postId => [deleteRequest postId])
  | .fb_get_posts =>
    (parse_fb_get_posts args).map
      (fun p => [getPagePostsRequest pageId p.limit p.after
        (p.fields.getD "id,message,created_time")])
  | .fb_get_comments =>
    (parse_fb_get_comments args).map
      (fun p => [getPostCommentsRequest p.post_id p.limit p.after
        (p.include_summary.getD false)])
  | .fb_reply_comment =>
    (parse_fb_reply_comment args).map
      (fun p => [replyToCommentRequest p.comment_id p.message])
  | .fb_delete_comment =>
    (parseCommentIdArgs args).map (fun commentId => [deleteRequest commentId])
  | .fb_get_insights =>
    (parse_fb_get_insights args).map
      (fun p => getInsightsRequests p.post_id p.metrics)
  | .fb_get_page_info =>
    (parse_fb_get_page_info args).map
      (fun fields => [getPageInfoRequest pageId (fields.getD "id,name,fan_count")])
  | .fb_send_message =>
    (parse_fb_send_message args).map
      (fun p => [sendDmRequest p.user_id p.message])
  | .fb_batch =>
    (parse_fb_batch args).map
      (fun p => batchRequestRequests p.operations p.include_headers)

/-- Validation outcome of running a consolidated tool's schema on raw
arguments: `some e` when the parse raises the structured error `e`. -/
def toolSchemaError (t : ToolName) (args : RawArgs) : Option ValidationError :=
  match t with
  | .fb_create_post => errOf (parse_fb_create_post args)
  | .fb_update_post => errOf (parse_fb_update_post args)
  | .fb_delete_post => errOf (parsePostIdArgs args)
  | .fb_get_posts => errOf (parse_fb_get_posts args)
  | .fb_get_comments => errOf (parse_fb_get_comments args)
  | .fb_reply_comment => errOf (parse_fb_reply_comment args)
  | .fb_delete_comment => errOf (parseCommentIdArgs args)
  | .fb_get_insights => errOf (parse_fb_get_insights args)
  | .fb_get_page_info => errOf (parse_fb_get_page_info args)
  | .fb_send_message => errOf (parse_fb_send_message args)
  | .fb_batch => errOf (parse_fb_batch args)

/-- Keys of the `handlers` record literal of the consolidated
`createToolRegistry` (toolRegistry.ts:24-102), in the order the source
declares them. -/
def handlerNames : List String :=
  [ "fb_create_post", "fb_update_post", "fb_delete_post", "fb_get_posts"
  , "fb_get_comments", "fb_reply_comment", "fb_delete_comment"
  , "fb_get_insights", "fb_get_page_info", "fb_send_message", "fb_batch" ]

/-- Modelled from the spec: the consolidated schema catalog whose keys
`buildToolDefinitions` maps over is not among the provided source files.
Per the spec, the definition list has one entry per ToolName in the
catalog's declared key order, and the consolidated surface consists of
exactly the 11 tools that the `createToolRegistry` doc comment and
handler record list, in this order. -/
def schemaNames : List String :=
  [ "fb_create_post", "fb_update_post", "fb_delete_post", "fb_get_posts"
  , "fb_get_comments", "fb_reply_comment", "fb_delete_comment"
  , "fb_get_insights", "fb_get_page_info", "fb_send_message", "fb_batch" ]

/-- Names of the definition list produced by the consolidated registry:
`buildToolDefinitions(toolSchemas, toolDescriptions)` derives one
definition per schema-catalog key, in key order. -/
def definitionNames : List String := schemaNames

end Consolidated

/-! General lemmas about the `Except` plumbing of the parse layer. -/

theorem exceptBind_ok {ε α β : Type} (a : α) (f : α → Except ε β) :
    (Except.ok a >>= f) = f a := rfl

theorem exceptBind_error {ε α β : Type} (e : ε) (f : α → Except ε β) :
    ((Except.error e : Except ε α) >>= f) = Except.error e := rfl

theorem exceptBind_eq_ok {ε α β : Type} {x : Except ε α} {f : α → Except ε β} {b : β} :
    (x >>= f) = Except.ok b ↔ ∃ a, x = Except.ok a ∧ f a = Except.ok b := by
  cases x with
  | error e =>
    rw [exceptBind_error]
    constructor
    · intro h; cases h
    · rintro ⟨a, ha, -⟩; cases ha
  | ok a =>
    rw [exceptBind_ok]
    constructor
    · intro h; exact ⟨a, rfl, h⟩
    · rintro ⟨a2, ha, hf⟩
      cases ha
      exact hf

/-- A handler of the shape `parse-then-shape` issues no request when the
parse throws: the error propagates unchanged. -/
theorem mapHandler_error {α : Type} (x : Except ValidationError α)
    (f : α → List Request) (e : ValidationError) (h : errOf x = some e) :
    x.map f = Except.error e ∧ requestsIssued (x.map f) = [] := by
  cases x with
  | error e0 =>
    cases h
    exact ⟨rfl, rfl⟩
  | ok a => cases h

/-! Lemmas about the substring machinery of the negative-comment filter. -/

theorem strContains_of_nil_data (hay needle : String) (h : hay.data = []) :
    strContains hay needle = needle.data.isEmpty := by
  unfold strContains
  rw [h]
  cases needle.data <;> rfl

/-- The per-comment test of the source equals the plain predicate of the
spec sentence: the lower-cased message contains some fixed keyword.  The
extra truthiness guard of the source (`if (!text) return false`) changes
nothing, because no keyword of the fixed list is empty. -/
theorem isNegativeComment_eq_spec (c : FacebookComment) :
    isNegativeComment c =
      (match c.message with
       | none => false
       | some m => NEGATIVE_KEYWORDS.any (fun kw => strContains (jsToLower m) kw)) := by
  cases hm : c.message with
  | none => simp [isNegativeComment, hm]
  | some m =>
    simp only [isNegativeComment, hm]
    by_cases h : (jsToLower m).data.isEmpty
    · rw [if_pos h]
      have hd : (jsToLower m).data = [] := List.isEmpty_iff.mp h
      have : NEGATIVE_KEYWORDS.any (fun kw => strContains (jsToLower m) kw) = false := by
        simp only [List.any_eq_false]
        intro kw hkw
        rw [strContains_of_nil_data _ _ hd]
        fin_cases hkw <;> decide
      rw [this]
    · rw [if_neg h]

/-- C3: for every comment collection, `filterNegativeComments` returns
exactly the comments, in their original order, whose lower-cased message
text contains at least one keyword of the fixed negative-sentiment list
as a substring; comments with no message are excluded.  On the spec's
example, only the comment saying "this is broken" is kept. -/
theorem claim_filterNegativeComments_correct :
    (∀ comments : GraphApiCollection FacebookComment,
      filterNegativeComments comments =
        (comments.data.getD []).filter
          (fun c =>
            match c.message with
            | none => false
            | some m => NEGATIVE_KEYWORDS.any (fun kw => strContains (jsToLower m) kw)))
    ∧ filterNegativeComments
        { data := some [{ message := some "this is broken" },
                        { message := some "great job" },
                        { message := none }] } =
        [{ message := some "this is broken" }] := by
  constructor
  · intro comments
    unfold filterNegativeComments
    exact List.filter_congr (fun c _ => isNegativeComment_eq_spec c)
  · decide

/-- C4: for every post id, the consolidated `getInsights` called without
an explicit metric list issues exactly one GET request to
`{post_id}/insights` whose `metric` parameter comma-joins exactly the 8
default metric names in declared order, with `period=lifetime`. -/
theorem claim_getInsights_default_metrics (postId : String) :
    (getInsightsRequests postId none).length = 1
    ∧ getInsightsRequests postId none =
        [{ method := .GET
           endpoint := postId ++ "/insights"
           params := [("metric", .str (String.intercalate "," DEFAULT_METRICS)),
                      ("period", .str "lifetime")] }]
    ∧ DEFAULT_METRICS =
        [ "post_impressions_unique", "post_clicks", "post_reactions_like_total"
        , "post_reactions_love_total", "post_reactions_wow_total"
        , "post_reactions_haha_total", "post_reactions_sorry_total"
        , "post_reactions_anger_total" ]
    ∧ String.intercalate "," DEFAULT_METRICS =
        "post_impressions_unique,post_clicks,post_reactions_like_total,post_reactions_love_total,post_reactions_wow_total,post_reactions_haha_total,post_reactions_sorry_total,post_reactions_anger_total" :=
  ⟨rfl, rfl, rfl, rfl⟩

/-- C5: in both registries produced by a `createToolRegistry` variant -
the legacy 27-tool one and the consolidated 11-tool one - the names of
the definition list and the keys of the handler map are the same tool
names: the two lists are equal entry by entry, each is duplicate-free,
and every tool name occurs exactly once in each (no orphan schema, no
orphan handler). -/
theorem claim_registry_names_bijection :
    (registryDefinitionNames = registryHandlerNames
     ∧ registryDefinitionNames.Nodup
     ∧ registryHandlerNames.Nodup
     ∧ (∀ n : String, n ∈ registryDefinitionNames ↔ n ∈ registryHandlerNames)
     ∧ (∀ t : ToolName,
         registryDefinitionNames.count t.str = 1
         ∧ registryHandlerNames.count t.str = 1))
    ∧ (Consolidated.definitionNames = Consolidated.handlerNames
       ∧ Consolidated.definitionNames.Nodup
       ∧ Consolidated.handlerNames.Nodup
       ∧ (∀ n : String, n ∈ Consolidated.definitionNames ↔ n ∈ Consolidated.handlerNames)
       ∧ (∀ t : Consolidated.ToolName,
           Consolidated.definitionNames.count t.str = 1
           ∧ Consolidated.handlerNames.count t.str = 1)) := by
  constructor
  · refine ⟨rfl, by decide, by decide, fun n => Iff.rfl, fun t => ?_⟩
    cases t <;> exact ⟨by decide, by decide⟩
  · refine ⟨rfl, by decide, by decide, fun n => Iff.rfl, fun t => ?_⟩
    cases t <;> exact ⟨by decide, by decide⟩

/-- C7: for every sequence of batch operations, `batchRequest` issues
exactly one POST whose `batch` parameter is the array of encoded
sub-operations, one per supplied operation and in supplied order, each
with its `body` mapping (when present) flattened to a URL-encoded form
string, and with the `include_headers` flag forwarded alongside. -/
theorem claim_batchRequest_shape (ops : List BatchOperation) (includeHeaders : Bool) :
    (batchRequestRequests ops includeHeaders).length = 1
    ∧ batchRequestRequests ops includeHeaders =
        [{ method := .POST
           endpoint := ""
           params := [("batch", .opsJson (ops.map encodeBatchOp)),
                      ("include_headers", .bool includeHeaders)] }]
    ∧ (ops.map encodeBatchOp).length = ops.length
    ∧ (∀ i : Nat, (ops.map encodeBatchOp).get? i = (ops.get? i).map encodeBatchOp)
    ∧ (∀ op : BatchOperation,
        (encodeBatchOp op).method = op.method
        ∧ (encodeBatchOp op).relative_url = op.relative_url
        ∧ (encodeBatchOp op).body = op.body.map formUrlEncode
        ∧ (encodeBatchOp op).name = op.name
        ∧ (encodeBatchOp op).omit_response_on_success = op.omit_response_on_success) := by
  refine ⟨rfl, rfl, List.length_map ops encodeBatchOp, fun i => ?_, fun op => ⟨rfl, rfl, rfl, rfl, rfl⟩⟩
  simp [List.get?_eq_getElem?, List.getElem?_map]

/-- C9: `fb_get_page_posts` with no arguments parses to the default
limit 25 with no cursor and its handler issues a request whose `limit`
parameter is 25 and which carries no `after` parameter; a supplied
cursor is forwarded unchanged through schema and request; and a supplied
`limit` passes the schema exactly when it is an integer in `[1, 100]`. -/
theorem claim_list_posts_pagination (pageId : String) :
    parse_fb_get_page_posts [] = .ok { limit := 25, after := none }
    ∧ handleTool pageId .fb_get_page_posts [] =
        .ok [getPagePostsRequest pageId 25 none]
    ∧ (getPagePostsRequest pageId 25 none).param "limit" = some (.int 25)
    ∧ (getPagePostsRequest pageId 25 none).param "after" = none
    ∧ (∀ s : String,
        parse_fb_get_page_posts [("after", .str s)] = .ok { limit := 25, after := some s })
    ∧ (∀ (limit : Nat) (a fields : String),
        (getPagePostsRequest pageId limit (some a) fields).param "after" = some (.str a))
    ∧ (∀ q : Rat,
        (parse_fb_get_page_posts [("limit", .num q)]).isOk =
          (q.den == 1 && decide (1 ≤ q.num) && decide (q.num ≤ 100))) := by
  refine ⟨rfl, rfl, rfl, rfl, fun s => rfl, fun limit a fields => rfl, fun q => ?_⟩
  unfold parse_fb_get_page_posts parseLimitField
  simp only [lookupField, List.find?]
  by_cases h : (q.den == 1 && decide (1 ≤ q.num) && decide (q.num ≤ 100)) = true
  · simp [h, exceptBind_ok, parseOptionalString, lookupField, Except.isOk, Except.toBool]
  · rw [Bool.not_eq_true] at h
    simp [h, exceptBind_error, Except.isOk, Except.toBool]

/-- C1: the consolidated create-post validation fails, before any
manager call, on every input containing neither `message` nor
`image_url`, whatever other fields are present; `{link: "https://x"}` is
rejected with the cross-field validation error, `{message: "hi"}` is
accepted with `published` defaulted to true, and
`{image_url: "https://x/y.jpg"}` is accepted with `message` absent. -/
theorem claim_create_post_requires_message_or_image :
    (∀ (pageId : String) (args : RawArgs),
        lookupField args "message" = none →
        lookupField args "image_url" = none →
        ∃ e, fb_create_post_handler pageId args = .error e)
    ∧ fb_create_post_handler "page" [("link", .str "https://x")] =
        .error (issue [] "Either message or image_url must be provided")
    ∧ parse_fb_create_post [("message", .str "hi")] =
        .ok { message := some "hi", link := none, place := none, published := true,
              scheduled_publish_time := none, image_url := none }
    ∧ parse_fb_create_post [("image_url", .str "https://x/y.jpg")] =
        .ok { message := none, link := none, place := none, published := true,
              scheduled_publish_time := none, image_url := some "https://x/y.jpg" } := by
  refine ⟨?_, rfl, rfl, rfl⟩
  intro pageId args h1 h2
  have hm : parseOptionalMinString args "message" = .ok none := by
    unfold parseOptionalMinString
    rw [h1]
  have hi : parseOptionalUrl args "image_url" = .ok none := by
    unfold parseOptionalUrl
    rw [h2]
  unfold fb_create_post_handler parse_fb_create_post
  rw [hm, exceptBind_ok]
  cases hl : parseOptionalUrl args "link" with
  | error e => rw [exceptBind_error]; exact ⟨e, rfl⟩
  | ok l =>
    rw [exceptBind_ok]
    cases hp : parseOptionalString args "place" with
    | error e => rw [exceptBind_error]; exact ⟨e, rfl⟩
    | ok pl =>
      rw [exceptBind_ok]
      cases hb : parseBoolDefault args "published" true with
      | error e => rw [exceptBind_error]; exact ⟨e, rfl⟩
      | ok pb =>
        rw [exceptBind_ok]
        cases hs : parseOptionalInt args "scheduled_publish_time" with
        | error e => rw [exceptBind_error]; exact ⟨e, rfl⟩
        | ok sc =>
          rw [exceptBind_ok, hi, exceptBind_ok]
          exact ⟨_, rfl⟩

theorem claim_create_post_requires_message_or_image_witness :
    ∃ e, fb_create_post_handler "page" [("place", JsonValue.str "p")] = .error e :=
  claim_create_post_requires_message_or_image.1 "page" [("place", JsonValue.str "p")] rfl rfl

/-- A successfully parsed optional url field carries a valid URL. -/
theorem parseOptionalUrl_ok_some {args : RawArgs} {f u : String}
    (h : parseOptionalUrl args f = .ok (some u)) : isHttpUrl u = true := by
  unfold parseOptionalUrl at h
  cases hl : lookupField args f with
  | none =>
    rw [hl] at h
    simp at h
  | some v =>
    rw [hl] at h
    cases v with
    | str s =>
      dsimp only at h
      split at h
      · injection h with h1
        injection h1 with h2
        subst h2
        assumption
      · simp at h
    | num q => simp at h
    | bool b => simp at h
    | arr xs => simp at h
    | obj kvs => simp at h
    | null => simp at h

/-- A valid URL is a nonempty string. -/
theorem isHttpUrl_data_not_empty {u : String} (h : isHttpUrl u = true) :
    u.data.isEmpty = false := by
  by_contra hc
  rw [Bool.not_eq_false] at hc
  have hd : u.data = [] := List.isEmpty_iff.mp hc
  unfold isHttpUrl strHasPre at h
  rw [hd] at h
  exact absurd h (by decide)

/-- Inversion of a successful consolidated create-post parse: a present
image url passed the url check. -/
theorem parse_create_post_ok_image {args : RawArgs} {p : CreatePostArgs}
    (h : parse_fb_create_post args = .ok p) :
    ∀ u, p.image_url = some u → isHttpUrl u = true := by
  intro u hu
  unfold parse_fb_create_post at h
  simp only [exceptBind_eq_ok] at h
  obtain ⟨m, hm, l, hl, pl, hpl, pb, hpb, sc, hsc, iu, hiu, hfin⟩ := h
  split at hfin
  · simp at hfin
  · injection hfin with hrec
    subst hrec
    dsimp only at hu
    subst hu
    exact parseOptionalUrl_ok_some hiu

/-- C10: on every validated consolidated create-post input carrying an
image url, the handler dispatches to the photo-post path - a POST to
`{page}/photos` with the url and the message as caption, empty when the
message is absent - and the outbound request carries only the `url` and
`caption` parameters: supplied link, place, published and
scheduled_publish_time fields are not forwarded. -/
theorem claim_create_post_image_dispatch :
    ∀ (pageId : String) (args : RawArgs) (p : CreatePostArgs) (u : String),
      parse_fb_create_post args = .ok p →
      p.image_url = some u →
      fb_create_post_handler pageId args =
          .ok [postImageRequest pageId u (p.message.getD "")]
      ∧ (postImageRequest pageId u (p.message.getD "")).params.map Prod.fst =
          ["url", "caption"] := by
  intro pageId args p u hok himg
  have hurl := parse_create_post_ok_image hok u himg
  have hne := isHttpUrl_data_not_empty hurl
  refine ⟨?_, rfl⟩
  unfold fb_create_post_handler
  rw [hok]
  dsimp only
  rw [himg]
  dsimp only
  rw [hne]
  rfl

theorem claim_create_post_image_dispatch_witness :
    fb_create_post_handler "page"
        [("image_url", JsonValue.str "https://x/y.jpg"),
         ("link", JsonValue.str "https://l.example"),
         ("published", JsonValue.bool false)] =
      .ok [postImageRequest "page" "https://x/y.jpg" ""]
    ∧ (postImageRequest "page" "https://x/y.jpg" "").params.map Prod.fst =
      ["url", "caption"] :=
  claim_create_post_image_dispatch "page"
    [("image_url", JsonValue.str "https://x/y.jpg"),
     ("link", JsonValue.str "https://l.example"),
     ("published", JsonValue.bool false)]
    { message := none, link := some "https://l.example", place := none,
      published := false, scheduled_publish_time := none,
      image_url := some "https://x/y.jpg" }
    "https://x/y.jpg" rfl rfl

/-- C8 counterexample: the batch schema of the source accepts a sequence
of 51 operations, so validation does not reject sequences of more than
50 operations. -/
theorem claim_batch_schema_counterexample :
    (parse_fb_batch_request
        [("operations", JsonValue.arr (List.replicate 51
            (JsonValue.obj [("method", JsonValue.str "GET"),
                            ("relative_url", JsonValue.str "me")])))]).isOk = true := by
  rfl

/-- Every replicate of the minimal valid GET operation parses. -/
theorem parseBatchOps_replicate_ok (n : Nat) :
    parseBatchOps (List.replicate n
        (JsonValue.obj [("method", JsonValue.str "GET"),
                        ("relative_url", JsonValue.str "me")])) =
      .ok (List.replicate n
        { method := HttpMethod.GET, relative_url := "me", body := none,
          name := none, omit_response_on_success := none }) := by
  induction n with
  | zero => rfl
  | succ k ih =>
    rw [List.replicate_succ, List.replicate_succ]
    simp only [parseBatchOps]
    rw [show parseBatchOp
          (JsonValue.obj [("method", JsonValue.str "GET"),
                          ("relative_url", JsonValue.str "me")]) =
        .ok ({ method := HttpMethod.GET, relative_url := "me", body := none,
               name := none, omit_response_on_success := none } : BatchOperation) from rfl]
    rw [exceptBind_ok, ih, exceptBind_ok]

/-- C8 amended: the operations sequence of the batch schema is bounded
below only - validation rejects an empty sequence, and every nonempty
sequence of valid operations is accepted regardless of its length. -/
theorem claim_batch_schema_min_one_no_upper_bound :
    (parse_fb_batch_request [("operations", JsonValue.arr [])] =
      .error (issue ["operations"] "Array must contain at least 1 element(s)"))
    ∧ (∀ n : Nat, 0 < n →
        parse_fb_batch_request
            [("operations", JsonValue.arr (List.replicate n
                (JsonValue.obj [("method", JsonValue.str "GET"),
                                ("relative_url", JsonValue.str "me")])))] =
          .ok { operations := List.replicate n
                  { method := HttpMethod.GET, relative_url := "me", body := none,
                    name := none, omit_response_on_success := none },
                include_headers := false }) := by
  constructor
  · rfl
  · intro n hn
    have h1 : parseOperationsField
        [("operations", JsonValue.arr (List.replicate n
            (JsonValue.obj [("method", JsonValue.str "GET"),
                            ("relative_url", JsonValue.str "me")])))] =
        if (List.replicate n
            (JsonValue.obj [("method", JsonValue.str "GET"),
                            ("relative_url", JsonValue.str "me")])).length < 1 then
          Except.error (issue ["operations"] "Array must contain at least 1 element(s)")
        else parseBatchOps (List.replicate n
            (JsonValue.obj [("method", JsonValue.str "GET"),
                            ("relative_url", JsonValue.str "me")])) := rfl
    rw [List.length_replicate, if_neg (by omega), parseBatchOps_replicate_ok] at h1
    unfold parse_fb_batch_request
    rw [h1, exceptBind_ok]
    rfl

theorem claim_batch_schema_min_one_no_upper_bound_witness :
    parse_fb_batch_request
        [("operations", JsonValue.arr (List.replicate 3
            (JsonValue.obj [("method", JsonValue.str "GET"),
                            ("relative_url", JsonValue.str "me")])))] =
      .ok { operations := List.replicate 3
              { method := HttpMethod.GET, relative_url := "me", body := none,
                name := none, omit_response_on_success := none },
            include_headers := false } :=
  claim_batch_schema_min_one_no_upper_bound.2 3 (by decide)

/-- Inversion of a parse-error observation. -/
theorem errOf_eq_some {α : Type} {x : Except ValidationError α} {e : ValidationError}
    (h : errOf x = some e) : x = .error e := by
  cases x with
  | error e0 =>
    injection h with h1
    rw [h1]
  | ok a => cases h

/-- The consolidated create-post handler propagates a parse error with
zero requests, like the map-shaped handlers. -/
theorem fb_create_post_handler_error (pageId : String) (args : RawArgs)
    (e : ValidationError) (h : parse_fb_create_post args = .error e) :
    fb_create_post_handler pageId args = .error e
    ∧ requestsIssued (fb_create_post_handler pageId args) = [] := by
  have h1 : fb_create_post_handler pageId args = .error e := by
    unfold fb_create_post_handler
    rw [h]
  exact ⟨h1, by rw [h1]; rfl⟩

/-- C6: in both registries - the legacy 27-tool one and the consolidated
11-tool one - every raw argument object failing a tool's schema makes
that tool's handler raise exactly the schema's structured validation
error and issue zero client requests. -/
theorem claim_validation_failure_zero_requests :
    (∀ (pageId : String) (t : ToolName) (args : RawArgs) (e : ValidationError),
        toolSchemaError t args = some e →
        handleTool pageId t args = .error e
        ∧ requestsIssued (handleTool pageId t args) = [])
    ∧ (∀ (pageId : String) (t : Consolidated.ToolName) (args : RawArgs)
          (e : ValidationError),
        Consolidated.toolSchemaError t args = some e →
        Consolidated.handleTool pageId t args = .error e
        ∧ requestsIssued (Consolidated.handleTool pageId t args) = []) := by
  constructor
  · intro pageId t args e h
    cases t <;>
      first
      | exact mapHandler_error _ _ _ h
      | simp [toolSchemaError, parse_fb_get_page_fan_count, errOf] at h
  · intro pageId t args e h
    cases t <;>
      first
      | exact mapHandler_error _ _ _ h
      | exact fb_create_post_handler_error pageId args e (errOf_eq_some h)

theorem claim_validation_failure_zero_requests_witness :
    (handleTool "page" ToolName.fb_delete_post [] =
        .error (issue ["post_id"] "Required")
     ∧ requestsIssued (handleTool "page" ToolName.fb_delete_post []) = [])
    ∧ (Consolidated.handleTool "page" Consolidated.ToolName.fb_update_post [] =
        .error (issue ["post_id"] "Required")
       ∧ requestsIssued
          (Consolidated.handleTool "page" Consolidated.ToolName.fb_update_post []) = []) :=
  ⟨claim_validation_failure_zero_requests.1 "page" ToolName.fb_delete_post []
    (issue ["post_id"] "Required") rfl,
   claim_validation_failure_zero_requests.2 "page" Consolidated.ToolName.fb_update_post []
    (issue ["post_id"] "Required") rfl⟩

/-! Lemmas about the frequency tally of the top-commenters ranking. -/

theorem lookedUp_bumpCount (acc : List (String × Nat)) (j k : String) :
    lookedUp (bumpCount acc j) k =
      if j == k then lookedUp acc k + 1 else lookedUp acc k := by
  induction acc with
  | nil =>
    by_cases h : (j == k) = true
    · simp [bumpCount, lookedUp, h]
    · simp [bumpCount, lookedUp, h]
  | cons hd tl ih =>
    obtain ⟨k0, v⟩ := hd
    by_cases h0 : (k0 == j) = true
    · have hk0 : k0 = j := eq_of_beq h0
      subst hk0
      have hstep : bumpCount ((k0, v) :: tl) k0 = (k0, v + 1) :: tl := by
        simp [bumpCount]
      rw [hstep]
      by_cases h1 : (k0 == k) = true
      · simp [lookedUp, h1]
      · simp [lookedUp, h1]
    · have hstep : bumpCount ((k0, v) :: tl) j = (k0, v) :: bumpCount tl j := by
        simp [bumpCount, h0]
      rw [hstep]
      by_cases h1 : (k0 == k) = true
      · have hjk : (j == k) = false := by
          rw [beq_eq_false_iff_ne]
          intro hjk
          exact h0 (beq_iff_eq.mpr ((eq_of_beq h1).trans hjk.symm))
        simp [lookedUp, h1, hjk]
      · simp [lookedUp, h1, ih]

theorem bumpCount_keys (acc : List (String × Nat)) (j : String) :
    (bumpCount acc j).map Prod.fst =
      if j ∈ acc.map Prod.fst then acc.map Prod.fst else acc.map Prod.fst ++ [j] := by
  induction acc with
  | nil => simp [bumpCount]
  | cons hd tl ih =>
    obtain ⟨k0, v⟩ := hd
    by_cases h0 : (k0 == j) = true
    · have hk0 : k0 = j := eq_of_beq h0
      subst hk0
      have hstep : bumpCount ((k0, v) :: tl) k0 = (k0, v + 1) :: tl := by
        simp [bumpCount]
      rw [hstep]
      simp
    · have hjk : ¬ j = k0 := fun hh => h0 (beq_iff_eq.mpr hh.symm)
      have hstep : bumpCount ((k0, v) :: tl) j = (k0, v) :: bumpCount tl j := by
        simp [bumpCount, h0]
      rw [hstep]
      simp only [List.map_cons]
      rw [ih]
      by_cases h1 : j ∈ tl.map Prod.fst
      · simp [h1, hjk]
      · simp [h1, hjk]

theorem foldl_bump_lookedUp (l : List String) :
    ∀ (acc : List (String × Nat)) (k : String),
      lookedUp (l.foldl bumpCount acc) k = l.count k + lookedUp acc k := by
  induction l with
  | nil => intro acc k; simp
  | cons a l ih =>
    intro acc k
    rw [List.foldl_cons, ih, lookedUp_bumpCount, List.count_cons]
    by_cases h : (a == k) = true
    · simp [h]; omega
    · simp [h]

theorem foldl_bump_keys_mem (l : List String) :
    ∀ (acc : List (String × Nat)) (k : String),
      k ∈ (l.foldl bumpCount acc).map Prod.fst ↔ k ∈ acc.map Prod.fst ∨ k ∈ l := by
  induction l with
  | nil => intro acc k; simp
  | cons a l ih =>
    intro acc k
    rw [List.foldl_cons, ih, bumpCount_keys]
    by_cases h : a ∈ acc.map Prod.fst
    · rw [if_pos h]
      simp only [List.mem_cons]
      constructor
      · rintro (hk | hk)
        · exact Or.inl hk
        · exact Or.inr (Or.inr hk)
      · rintro (hk | hk | hk)
        · exact Or.inl hk
        · exact Or.inl (hk ▸ h)
        · exact Or.inr hk
    · rw [if_neg h]
      simp only [List.mem_append, List.mem_singleton, List.mem_cons]
      tauto

theorem foldl_bump_keys_nodup (l : List String) :
    ∀ acc : List (String × Nat),
      (acc.map Prod.fst).Nodup → ((l.foldl bumpCount acc).map Prod.fst).Nodup := by
  induction l with
  | nil => intro acc h; simpa using h
  | cons a l ih =>
    intro acc h
    rw [List.foldl_cons]
    apply ih
    rw [bumpCount_keys]
    by_cases ha : a ∈ acc.map Prod.fst
    · rw [if_pos ha]; exact h
    · rw [if_neg ha, List.nodup_append]
      refine ⟨h, List.nodup_singleton a, ?_⟩
      intro x hx hx2
      rw [List.mem_singleton] at hx2
      subst hx2
      exact ha hx

theorem bumpCount_values_pos (j : String) :
    ∀ acc : List (String × Nat),
      (∀ p ∈ acc, 0 < p.2) → ∀ p ∈ bumpCount acc j, 0 < p.2 := by
  intro acc
  induction acc with
  | nil =>
    intro _ p hp
    rw [show bumpCount [] j = [(j, 1)] from rfl] at hp
    rw [List.mem_singleton] at hp
    subst hp
    exact Nat.one_pos
  | cons hd tl ih =>
    obtain ⟨k0, v⟩ := hd
    intro h p hp
    by_cases h0 : (k0 == j) = true
    · simp only [bumpCount, h0, if_true] at hp
      rcases List.mem_cons.mp hp with h1 | h1
      · subst h1; exact Nat.succ_pos v
      · exact h p (List.mem_cons_of_mem _ h1)
    · simp only [bumpCount, h0, if_false] at hp
      rcases List.mem_cons.mp hp with h1 | h1
      · subst h1; exact h _ (List.mem_cons_self _ _)
      · exact ih (fun q hq => h q (List.mem_cons_of_mem _ hq)) p h1

theorem foldl_bump_values_pos (l : List String) :
    ∀ acc : List (String × Nat),
      (∀ p ∈ acc, 0 < p.2) → ∀ p ∈ l.foldl bumpCount acc, 0 < p.2 := by
  induction l with
  | nil => intro acc h; simpa using h
  | cons a l ih =>
    intro acc h
    rw [List.foldl_cons]
    exact ih _ (bumpCount_values_pos a acc h)

theorem mem_of_key_mem (acc : List (String × Nat)) (k : String)
    (h : k ∈ acc.map Prod.fst) : (k, lookedUp acc k) ∈ acc := by
  induction acc with
  | nil => simp at h
  | cons hd tl ih =>
    obtain ⟨k0, v⟩ := hd
    by_cases h0 : (k0 == k) = true
    · have hk0 : k0 = k := eq_of_beq h0
      subst hk0
      simp only [lookedUp, h0, if_true]
      exact List.mem_cons_self _ _
    · simp only [lookedUp, h0, if_false]
      have hk : k ∈ tl.map Prod.fst := by
        rw [List.map_cons, List.mem_cons] at h
        rcases h with h1 | h1
        · exact absurd (beq_iff_eq.mpr h1.symm) (by simpa using h0)
        · exact h1
      exact List.mem_cons_of_mem _ (ih hk)

theorem lookedUp_of_mem (acc : List (String × Nat)) (k : String) (v : Nat)
    (hnd : (acc.map Prod.fst).Nodup) (h : (k, v) ∈ acc) : lookedUp acc k = v := by
  induction acc with
  | nil => simp at h
  | cons hd tl ih =>
    obtain ⟨k0, v0⟩ := hd
    rw [List.map_cons, List.nodup_cons] at hnd
    rcases List.mem_cons.mp h with h1 | h1
    · rw [Prod.mk.injEq] at h1
      obtain ⟨hk, hv⟩ := h1
      subst hk
      subst hv
      simp [lookedUp]
    · have hk0 : (k0 == k) = false := by
        rw [beq_eq_false_iff_ne]
        intro hh
        apply hnd.1
        rw [hh]
        exact List.mem_map.mpr ⟨(k, v), h1, rfl⟩
      simp only [lookedUp, hk0, if_false]
      exact ih hnd.2 h1

theorem tally_mem_iff (authors : List String) (k : String) (v : Nat) :
    (k, v) ∈ tallyAuthors authors ↔ (authors.count k = v ∧ 0 < v) := by
  unfold tallyAuthors
  have hnd : ((authors.foldl bumpCount []).map Prod.fst).Nodup :=
    foldl_bump_keys_nodup authors [] (by simp)
  have hcount : lookedUp (authors.foldl bumpCount []) k = authors.count k := by
    rw [foldl_bump_lookedUp]
    rfl
  constructor
  · intro h
    have hv : 0 < v := foldl_bump_values_pos authors [] (by simp) (k, v) h
    have hl : lookedUp (authors.foldl bumpCount []) k = v := lookedUp_of_mem _ _ _ hnd h
    exact ⟨by rw [← hcount, hl], hv⟩
  · rintro ⟨hc, hv⟩
    have hk : k ∈ authors := by
      rw [← List.count_pos_iff]
      omega
    have hkeys : k ∈ (authors.foldl bumpCount []).map Prod.fst := by
      rw [foldl_bump_keys_mem]
      exact Or.inr hk
    have hmem := mem_of_key_mem _ _ hkeys
    rw [hcount, hc] at hmem
    exact hmem

theorem indexOf_append_lt {k : String} (pre rest : List String) (h : k ∈ pre) :
    (pre ++ rest).indexOf k < pre.length := by
  induction pre with
  | nil => simp at h
  | cons a pre ih =>
    rw [List.cons_append, List.indexOf_cons]
    by_cases ha : (a == k) = true
    · simp [ha]
    · have hk : k ∈ pre := by
        rcases List.mem_cons.mp h with h1 | h1
        · exact absurd (beq_iff_eq.mpr h1.symm) (by simpa using ha)
        · exact h1
      simp only [ha, cond_false, List.length_cons]
      have := ih hk
      omega

theorem indexOf_append_ge {k : String} (pre rest : List String) (h : k ∉ pre) :
    pre.length ≤ (pre ++ rest).indexOf k := by
  induction pre with
  | nil => simp
  | cons a pre ih =>
    rw [List.cons_append, List.indexOf_cons]
    have ha : (a == k) = false := by
      rw [beq_eq_false_iff_ne]
      intro hh
      exact h (by rw [hh]; exact List.mem_cons_self _ _)
    have hk : k ∉ pre := fun hh => h (List.mem_cons_of_mem _ hh)
    simp only [ha, cond_false, List.length_cons]
    have := ih hk
    omega

theorem foldl_bump_keys_pairwise (L : List String) :
    ∀ (rest pre : List String) (acc : List (String × Nat)),
      L = pre ++ rest →
      (∀ k, k ∈ acc.map Prod.fst ↔ k ∈ pre) →
      (acc.map Prod.fst).Pairwise (fun a b => L.indexOf a < L.indexOf b) →
      ((rest.foldl bumpCount acc).map Prod.fst).Pairwise
        (fun a b => L.indexOf a < L.indexOf b) := by
  intro rest
  induction rest with
  | nil =>
    intro pre acc _ _ hpw
    simpa using hpw
  | cons a rest ih =>
    intro pre acc hL hmem hpw
    rw [List.foldl_cons]
    apply ih (pre ++ [a]) (bumpCount acc a)
    · rw [hL, List.append_assoc]
      rfl
    · intro k
      rw [bumpCount_keys]
      by_cases ha : a ∈ acc.map Prod.fst
      · rw [if_pos ha, hmem, List.mem_append, List.mem_singleton]
        constructor
        · exact fun hk => Or.inl hk
        · rintro (hk | hk)
          · exact hk
          · exact hk ▸ ((hmem a).mp ha)
      · rw [if_neg ha]
        simp [List.mem_append, hmem k]
    · rw [bumpCount_keys]
      by_cases ha : a ∈ acc.map Prod.fst
      · rw [if_pos ha]; exact hpw
      · rw [if_neg ha, List.pairwise_append]
        refine ⟨hpw, List.pairwise_singleton _ _, ?_⟩
        intro x hx b hb
        rw [List.mem_singleton] at hb
        rw [hb]
        have hxpre : x ∈ pre := (hmem x).mp hx
        have hapre : a ∉ pre := fun hh => ha ((hmem a).mpr hh)
        rw [hL]
        have h1 : (pre ++ a :: rest).indexOf x < pre.length :=
          indexOf_append_lt pre (a :: rest) hxpre
        have h2 : pre.length ≤ (pre ++ a :: rest).indexOf a :=
          indexOf_append_ge pre (a :: rest) hapre
        omega

theorem tally_keys_pairwise (authors : List String) :
    ((tallyAuthors authors).map Prod.fst).Pairwise
      (fun a b => authors.indexOf a < authors.indexOf b) := by
  unfold tallyAuthors
  exact foldl_bump_keys_pairwise authors authors [] [] (by simp) (by simp) (by simp)

/-! Lemmas about the stable count-descending sort. -/

theorem insertByCountDesc_perm (x : CommenterCount) (l : List CommenterCount) :
    (insertByCountDesc x l).Perm (x :: l) := by
  induction l with
  | nil => exact List.Perm.refl _
  | cons y ys ih =>
    simp only [insertByCountDesc]
    by_cases h : y.count < x.count
    · rw [if_pos h]
    · rw [if_neg h]
      exact (List.Perm.cons y ih).trans (List.Perm.swap x y ys)

theorem sortCountGo_perm : ∀ xs acc : List CommenterCount,
    (sortCountGo xs acc).Perm (xs ++ acc) := by
  intro xs
  induction xs with
  | nil =>
    intro acc
    exact List.Perm.refl _
  | cons x xs ih =>
    intro acc
    simp only [sortCountGo]
    have h1 := ih (insertByCountDesc x acc)
    have h2 : (xs ++ insertByCountDesc x acc).Perm (xs ++ (x :: acc)) :=
      List.Perm.append_left xs (insertByCountDesc_perm x acc)
    have h3 : (xs ++ (x :: acc)).Perm (x :: (xs ++ acc)) := List.perm_middle
    exact (h1.trans h2).trans h3

theorem sortByCountDesc_perm (entries : List CommenterCount) :
    (sortByCountDesc entries).Perm entries := by
  have h := sortCountGo_perm entries []
  simpa [sortByCountDesc] using h

theorem insertByCountDesc_pairwise {RE : CommenterCount → CommenterCount → Prop}
    (x : CommenterCount) (l : List CommenterCount)
    (hpw : l.Pairwise (fun a b => b.count < a.count ∨ (b.count = a.count ∧ RE a b)))
    (hall : ∀ y ∈ l, RE y x) :
    (insertByCountDesc x l).Pairwise
      (fun a b => b.count < a.count ∨ (b.count = a.count ∧ RE a b)) := by
  induction l with
  | nil => simp [insertByCountDesc]
  | cons y ys ih =>
    simp only [insertByCountDesc]
    by_cases h : y.count < x.count
    · rw [if_pos h]
      refine List.Pairwise.cons ?_ hpw
      intro z hz
      rcases List.mem_cons.mp hz with h1 | h1
      · rw [h1]; exact Or.inl h
      · have hyz := List.rel_of_pairwise_cons hpw h1
        rcases hyz with h2 | h2
        · exact Or.inl (lt_trans h2 h)
        · obtain ⟨heq, -⟩ := h2
          exact Or.inl (by omega)
    · rw [if_neg h]
      have hpw2 := List.pairwise_cons.mp hpw
      refine List.Pairwise.cons ?_
        (ih hpw2.2 (fun z hz => hall z (List.mem_cons_of_mem _ hz)))
      intro z hz
      have hz2 : z ∈ x :: ys := (insertByCountDesc_perm x ys).mem_iff.mp hz
      rcases List.mem_cons.mp hz2 with h1 | h1
      · rw [h1]
        rcases Nat.lt_or_ge x.count y.count with hlt | hge
        · exact Or.inl hlt
        · have heq : x.count = y.count := by omega
          exact Or.inr ⟨heq, hall y (List.mem_cons_self _ _)⟩
      · exact hpw2.1 z h1

theorem sortCountGo_pairwise {RE : CommenterCount → CommenterCount → Prop} :
    ∀ xs acc : List CommenterCount,
      acc.Pairwise (fun a b => b.count < a.count ∨ (b.count = a.count ∧ RE a b)) →
      (∀ y ∈ acc, ∀ x ∈ xs, RE y x) →
      xs.Pairwise RE →
      (sortCountGo xs acc).Pairwise
        (fun a b => b.count < a.count ∨ (b.count = a.count ∧ RE a b)) := by
  intro xs
  induction xs with
  | nil =>
    intro acc h _ _
    simpa [sortCountGo] using h
  | cons x xs ih =>
    intro acc hacc hcross hxs
    simp only [sortCountGo]
    have hxs2 := List.pairwise_cons.mp hxs
    apply ih
    · exact insertByCountDesc_pairwise x acc hacc
        (fun y hy => hcross y hy x (List.mem_cons_self _ _))
    · intro y hy z hz
      have hy2 : y ∈ x :: acc := (insertByCountDesc_perm x acc).mem_iff.mp hy
      rcases List.mem_cons.mp hy2 with h1 | h1
      · rw [h1]; exact hxs2.1 z hz
      · exact hcross y h1 z (List.mem_cons_of_mem _ hz)
    · exact hxs2.2

/-- Sortedness and tie-stability of the full ranking, relative to any
order `RE` in which the tally entries are already listed. -/
theorem sortByCountDesc_pairwise {RE : CommenterCount → CommenterCount → Prop}
    (entries : List CommenterCount) (hpw : entries.Pairwise RE) :
    (sortByCountDesc entries).Pairwise
      (fun a b => b.count < a.count ∨ (b.count = a.count ∧ RE a b)) :=
  sortCountGo_pairwise entries [] (List.Pairwise.nil) (by simp) hpw

/-- C2: for every comment collection, `getPostTopCommenters` returns one
`{user_id, count}` pair per distinct identifiable commenter, with the
count equal to the number of comments that commenter authored (comments
with no identifiable author are ignored), sorted by count descending
with equal counts kept in first-encounter order; on the spec's example
sequence A B A C B A the result is A:3, B:2, C:1. -/
theorem claim_top_commenters_correct :
    (∀ (comments : GraphApiCollection FacebookComment) (u : String) (c : Nat),
        ({ user_id := u, count := c } : CommenterCount) ∈ getPostTopCommenters comments ↔
          ((commentAuthors comments).count u = c ∧ 0 < c))
    ∧ (∀ comments : GraphApiCollection FacebookComment,
        ((getPostTopCommenters comments).map CommenterCount.user_id).Nodup)
    ∧ (∀ comments : GraphApiCollection FacebookComment,
        (getPostTopCommenters comments).Pairwise (fun a b => b.count ≤ a.count))
    ∧ (∀ comments : GraphApiCollection FacebookComment,
        (getPostTopCommenters comments).Pairwise (fun a b =>
          a.count = b.count →
            (commentAuthors comments).indexOf a.user_id <
              (commentAuthors comments).indexOf b.user_id))
    ∧ getPostTopCommenters
        { data := some
            [ { fromUser := some { id := "A" } }, { fromUser := some { id := "B" } }
            , { fromUser := some { id := "A" } }, { fromUser := some { id := "C" } }
            , { fromUser := some { id := "B" } }, { fromUser := some { id := "A" } } ] } =
        [⟨"A", 3⟩, ⟨"B", 2⟩, ⟨"C", 1⟩] := by
  have hperm : ∀ comments : GraphApiCollection FacebookComment,
      (getPostTopCommenters comments).Perm
        ((tallyAuthors (commentAuthors comments)).map
          (fun e => ({ user_id := e.1, count := e.2 } : CommenterCount))) := by
    intro comments
    unfold getPostTopCommenters
    exact sortByCountDesc_perm _
  have hRE : ∀ comments : GraphApiCollection FacebookComment,
      ((tallyAuthors (commentAuthors comments)).map
          (fun e => ({ user_id := e.1, count := e.2 } : CommenterCount))).Pairwise
        (fun a b => (commentAuthors comments).indexOf a.user_id <
          (commentAuthors comments).indexOf b.user_id) := by
    intro comments
    rw [List.pairwise_map]
    have h := tally_keys_pairwise (commentAuthors comments)
    rw [List.pairwise_map] at h
    exact h
  refine ⟨?_, ?_, ?_, ?_, by decide⟩
  · intro comments u c
    rw [(hperm comments).mem_iff, List.mem_map]
    constructor
    · rintro ⟨e, he, heq⟩
      rw [CommenterCount.mk.injEq] at heq
      obtain ⟨h1, h2⟩ := heq
      have : e = (u, c) := by
        obtain ⟨e1, e2⟩ := e
        simp only at h1 h2
        rw [h1, h2]
      rw [this] at he
      exact (tally_mem_iff _ _ _).mp he
    · intro h
      exact ⟨(u, c), (tally_mem_iff _ _ _).mpr h, rfl⟩
  · intro comments
    have hmap := ((hperm comments).map CommenterCount.user_id).nodup_iff
    rw [hmap]
    rw [List.map_map]
    have hnd : ((tallyAuthors (commentAuthors comments)).map Prod.fst).Nodup := by
      unfold tallyAuthors
      exact foldl_bump_keys_nodup _ [] (by simp)
    exact hnd
  · intro comments
    have hS := sortByCountDesc_pairwise _ (hRE comments)
    unfold getPostTopCommenters
    refine hS.imp ?_
    rintro a b (h | h)
    · exact le_of_lt h
    · exact le_of_eq h.1
  · intro comments
    have hS := sortByCountDesc_pairwise _ (hRE comments)
    unfold getPostTopCommenters
    refine hS.imp ?_
    rintro a b (h | ⟨h1, h2⟩) heq
    · omega
    · exact h2

end MetaMCP
